import Mathlib

/-!
Verification of the SolidWorks metadata extraction tool
(SW_Metadata_Extract.py) against its natural-language specification.

The Python program drives an external COM automation host.  We embed it
shallowly: the host is an oracle (a record of scripted responses, one per
COM entry point), the reader object's two attributes (sw_app, sw_model)
together with the local metadata dict become an explicit state, Python
exceptions become an error component threaded through a state-passing
monad, and every host interaction is additionally recorded in an event
trace so that claims about which host calls happen (and how often cleanup
runs) are statable.  Machine-level details that no part of the program
depends on (COM marshalling, float representation) are modelled by an
opaque scalar constructor carrying the string Python's str() would
produce for it.
-/

/-- Python values as they flow through this program: None, strings,
numbers (an exact rational plus the repr string Python would print for
the underlying float), and tuples.  Python lists are modelled by the
tuple constructor as the program treats (list, tuple) identically. -/
inductive PyVal : Type where
  | none : PyVal
  | pystr : String → PyVal
  | pynum : Rat → String → PyVal
  | tup : List PyVal → PyVal

/-- Python truthiness for the values above. -/
def pyTruthy : PyVal → Bool
  | PyVal.none => false
  | PyVal.pystr s => !s.isEmpty
  | PyVal.pynum q _ => q.num != 0
  | PyVal.tup xs => !xs.isEmpty

mutual
/-- Python str() of a value; repr() for elements shown inside tuples. -/
def pyStr : PyVal → String
  | PyVal.none => "None"
  | PyVal.pystr s => s
  | PyVal.pynum _ r => r
  | PyVal.tup xs => "(" ++ pyReprList xs ++ ")"

/-- Python repr() of a value. -/
def pyRepr : PyVal → String
  | PyVal.none => "None"
  | PyVal.pystr s => "'" ++ s ++ "'"
  | PyVal.pynum _ r => r
  | PyVal.tup xs => "(" ++ pyReprList xs ++ ")"

/-- Comma-separated reprs of tuple elements. -/
def pyReprList : List PyVal → String
  | [] => ""
  | [x] => pyRepr x
  | x :: y :: rest => pyRepr x ++ ", " ++ pyReprList (y :: rest)
end

/-- Python len() where defined (tuples and strings). -/
def pyLenOpt : PyVal → Option Nat
  | PyVal.tup xs => some xs.length
  | PyVal.pystr s => some s.length
  | _ => Option.none

/-- Python v[0] on values where it is used after a positive len() check. -/
def pyFirst : PyVal → PyVal
  | PyVal.tup (x :: _) => x
  | PyVal.pystr s =>
      match s.data with
      | [] => PyVal.none
      | c :: _ => PyVal.pystr (String.mk [c])
  | _ => PyVal.none

/-- Exception payloads are just their message. -/
abbrev Err := String

/-- One host interaction, with the arguments the program passed. -/
inductive Event : Type where
  | getActiveObject : Event
  | dispatch : Event
  | setVisible : Event
  | openDoc : String → Nat → Event
  | openDoc6 : String → Nat → Nat → String → Nat → Nat → Event
  | customPropMgr : Event
  | getNames : Event
  | getProp : PyVal → Event
  | summaryInfo : Nat → Event
  | getTitle : Event
  | getPathName : Event
  | configMgr : Event
  | activeConfig : Event
  | configName : Event
  | getConfigNames : Event
  | materialProps : Event
  | createMassProps : Event
  | closeDoc : PyVal → Event
  | exitApp : Event

/-- Event is the commented-out host termination call ExitApp. -/
def isExitEv : Event → Bool
  | Event.exitApp => true
  | _ => false

/-- Number of host-termination calls in a trace. -/
def countExit (t : List Event) : Nat := (t.filter isExitEv).length

/-- Result of the host's CreateMassProperty object: the three attributes
the program reads with getattr(-, -, None). -/
structure MassProps : Type where
  mass : Option Rat
  volume : Option Rat
  surfaceArea : Option Rat

/-- Scripted responses of the external world: one field per COM entry
point the program touches, each an Except so the oracle can also make
the call raise.  Attribute chains the program reads in one statement
(for example Extension.CustomPropertyManager) are collapsed into the one
call whose failure the program would observe at that statement. -/
structure Oracle : Type where
  abspath : String → String
  getActiveObject : Except Err Unit
  dispatch : Except Err Unit
  setVisible : Except Err Unit
  openDoc : Except Err (Option Unit)
  openDoc6 : Except Err (Option Unit)
  customPropertyManager : Except Err (Option Unit)
  getNames : Except Err PyVal
  get : PyVal → Except Err PyVal
  summaryInfo : Nat → Except Err PyVal
  getTitle : Except Err PyVal
  getPathName : Except Err PyVal
  configurationManager : Except Err (Option Unit)
  activeConfiguration : Except Err (Option Unit)
  configName : Except Err PyVal
  getConfigurationNames : Except Err PyVal
  materialPropertyValues : Except Err PyVal
  createMassProperty : Except Err (Option MassProps)
  closeDoc : Except Err Unit

/-- Program state: the reader object's two references, the metadata
dict being assembled, the trace of host interactions, and an
instrumentation counter of cleanup invocations. -/
structure St : Type where
  sw_app : Option Unit
  sw_model : Option Unit
  metadata : List (String × String)
  trace : List Event
  cleanupCount : Nat

/-- Outcome of running a fragment: normal value or propagating
exception, in both cases with the state reached. -/
inductive MRes (α : Type) : Type where
  | ok : α → St → MRes α
  | err : Err → St → MRes α

/-- State reached by an outcome, whether normal or exceptional. -/
def stOf {α : Type} : MRes α → St
  | MRes.ok _ s => s
  | MRes.err _ s => s

/-- Shallow embedding of a Python code fragment. -/
def PyM (α : Type) : Type := St → MRes α

def PyM.pure {α : Type} (a : α) : PyM α := fun s => MRes.ok a s

def PyM.throw {α : Type} (e : Err) : PyM α := fun s => MRes.err e s

def PyM.bind {α β : Type} (m : PyM α) (f : α → PyM β) : PyM β := fun s =>
  match m s with
  | MRes.ok a s' => f a s'
  | MRes.err e s' => MRes.err e s'

/-- Python try/except: the handler runs from the state at the raise
point (Python does not roll back side effects). -/
def PyM.tryCatch {α : Type} (m : PyM α) (h : Err → PyM α) : PyM α := fun s =>
  match m s with
  | MRes.ok a s' => MRes.ok a s'
  | MRes.err e s' => h e s'

/-- Python try/finally: the finaliser runs on both paths; an exception
raised by the finaliser replaces the original outcome. -/
def PyM.tryFinally {α : Type} (m : PyM α) (fin : PyM Unit) : PyM α := fun s =>
  match m s with
  | MRes.ok a s' =>
      match fin s' with
      | MRes.ok _ s'' => MRes.ok a s''
      | MRes.err e s'' => MRes.err e s''
  | MRes.err e s' =>
      match fin s' with
      | MRes.ok _ s'' => MRes.err e s''
      | MRes.err e' s'' => MRes.err e' s''

def addTrace (s : St) (e : Event) : St := { s with trace := s.trace ++ [e] }

/-- Perform one host call: record the event, then return or raise
whatever the oracle scripted for it. -/
def callO {α : Type} (e : Event) (r : Except Err α) : PyM α := fun s =>
  match r with
  | Except.ok a => MRes.ok a (addTrace s e)
  | Except.error msg => MRes.err msg (addTrace s e)

def getMeta : PyM (List (String × String)) := fun s => MRes.ok s.metadata s
def getModel : PyM (Option Unit) := fun s => MRes.ok s.sw_model s
def getApp : PyM (Option Unit) := fun s => MRes.ok s.sw_app s
def setApp : PyM Unit := fun s => MRes.ok () { s with sw_app := some () }
def setAppNone : PyM Unit := fun s => MRes.ok () { s with sw_app := Option.none }
def setModel (h : Option Unit) : PyM Unit := fun s => MRes.ok () { s with sw_model := h }
def resetMeta : PyM Unit := fun s => MRes.ok () { s with metadata := [] }
def bumpCleanup : PyM Unit := fun s => MRes.ok () { s with cleanupCount := s.cleanupCount + 1 }

/-- Python dict assignment d[k] = v on an insertion-ordered dict with
unique keys: replace in place if present, else append. -/
def dictInsert : List (String × String) → String → String → List (String × String)
  | [], k, v => [(k, v)]
  | (k', v') :: rest, k, v =>
      if k' = k then (k, v) :: rest else (k', v') :: dictInsert rest k v

/-- Dict lookup (first matching key). -/
def lookupD : List (String × String) → String → Option String
  | [], _ => Option.none
  | (k', v) :: rest, k => if k' = k then some v else lookupD rest k

def putMeta (k v : String) : PyM Unit := fun s =>
  MRes.ok () { s with metadata := dictInsert s.metadata k v }

/-- ASCII-folding lower-case, as str.lower() behaves on the extensions
this program compares. -/
def strLower (s : String) : String := String.mk (s.data.map Char.toLower)

/-- Extension part of os.path.splitext: the suffix from the last dot of
the final path component, unless every character before that dot in the
component is itself a dot. -/
def splitextExt (p : String) : String :=
  let base := (p.data.reverse.takeWhile (fun c => !(c == '/' || c == '\\'))).reverse
  let tl := base.reverse.takeWhile (fun c => c != '.')
  if tl.length = base.length then ""
  else
    let dotIdx := base.length - tl.length - 1
    if (base.take dotIdx).any (fun c => c != '.') then String.mk (base.drop dotIdx)
    else ""

/-- Iterating a Python value with a for loop: tuples yield elements,
strings yield one-character strings, other values raise TypeError. -/
def pyIterM (v : PyVal) : PyM (List PyVal) :=
  match v with
  | PyVal.tup xs => PyM.pure xs
  | PyVal.pystr s => PyM.pure (s.data.map (fun c => PyVal.pystr (String.mk [c])))
  | _ => PyM.throw "object is not iterable"

/-- connect_to_solidworks: attach to a running instance, else spawn one;
then force it invisible.  Any failure is caught and reported as False. -/
def connect_to_solidworks (o : Oracle) : PyM Bool :=
  PyM.tryCatch
    (PyM.bind
      (PyM.tryCatch
        (PyM.bind (callO Event.getActiveObject o.getActiveObject) (fun _ => setApp))
        (fun _ => PyM.bind (callO Event.dispatch o.dispatch) (fun _ => setApp)))
      (fun _ =>
        PyM.bind (callO Event.setVisible o.setVisible) (fun _ => PyM.pure true)))
    (fun _ => PyM.pure false)

/-- Document type code from the lower-cased extension (lines 47-55):
1 part, 2 assembly, 3 drawing, otherwise raise ValueError. -/
def docTypeOf (ext : String) : PyM Nat :=
  if ext = ".sldprt" then PyM.pure 1
  else if ext = ".sldasm" then PyM.pure 2
  else if ext = ".slddrw" then PyM.pure 3
  else PyM.throw "Unsupported file type"

/-- Lines 59-71: try OpenDoc first; only if it raises, fall back to
OpenDoc6 with the same path and type code plus the fixed extra
arguments; the result (possibly None) is stored in sw_model. -/
def openStep (o : Oracle) (ap : String) (dt : Nat) : PyM Unit :=
  PyM.tryCatch
    (PyM.bind (callO (Event.openDoc ap dt) o.openDoc) setModel)
    (fun _ => PyM.bind (callO (Event.openDoc6 ap dt 1 "" 0 0) o.openDoc6) setModel)

/-- Lines 96-101: store one custom property value under Custom_ name;
a truthy tuple contributes str of its first element (empty string if
that element is falsy), any other truthy value contributes its str. -/
def customStore (n v : PyVal) : PyM Unit :=
  match v with
  | PyVal.tup (x :: _) =>
      putMeta ("Custom_" ++ pyStr n) (if pyTruthy x then pyStr x else "")
  | _ => putMeta ("Custom_" ++ pyStr n) (pyStr v)

/-- Lines 93-104: per-property read, each wrapped in try/except that
skips to the next property on failure. -/
def customLoop (o : Oracle) : List PyVal → PyM Unit
  | [] => PyM.pure ()
  | n :: rest =>
      PyM.bind
        (PyM.tryCatch
          (PyM.bind (callO (Event.getProp n) (o.get n)) (fun v =>
            if pyTruthy v then customStore n v else PyM.pure ()))
          (fun _ => PyM.pure ()))
        (fun _ => customLoop o rest)

/-- Lines 79-106: custom property extraction step. -/
def step1 (o : Oracle) : PyM Unit :=
  PyM.tryCatch
    (PyM.bind (callO Event.customPropMgr o.customPropertyManager) (fun pm =>
      if pm.isSome then
        PyM.bind (callO Event.getNames o.getNames) (fun pnr =>
          if pyTruthy pnr then
            let pn :=
              match pnr with
              | PyVal.tup [] => PyVal.none
              | PyVal.tup (x :: _) => x
              | v => v
            if pyTruthy pn then PyM.bind (pyIterM pn) (customLoop o)
            else PyM.pure ()
          else PyM.pure ())
      else PyM.pure ()))
    (fun _ => PyM.pure ())

/-- The ten summary-information slots of lines 109-120, in the dict's
insertion order. -/
def summaryFields : List (Nat × String) :=
  [(0, "Title"), (1, "Subject"), (2, "Author"), (3, "Keywords"),
   (4, "Comments"), (5, "LastSavedBy"), (6, "RevisionNumber"),
   (9, "CreatedDate"), (10, "ModifiedDate"), (11, "LastPrintedDate")]

/-- Lines 122-128: one try per slot, failures skipped independently. -/
def summaryLoop (o : Oracle) : List (Nat × String) → PyM Unit
  | [] => PyM.pure ()
  | (i, nm) :: rest =>
      PyM.bind
        (PyM.tryCatch
          (PyM.bind (callO (Event.summaryInfo i) (o.summaryInfo i)) (fun v =>
            if pyTruthy v then putMeta ("Summary_" ++ nm) (pyStr v) else PyM.pure ()))
          (fun _ => PyM.pure ()))
        (fun _ => summaryLoop o rest)

/-- Summary information extraction step. -/
def step2 (o : Oracle) : PyM Unit := summaryLoop o summaryFields

/-- Lines 135-146: normalise a sequence-or-scalar host value to the
string stored in the map. -/
def scalarize (v : PyVal) : String :=
  match v with
  | PyVal.tup [] => ""
  | PyVal.tup (x :: _) => pyStr x
  | v => pyStr v

/-- Lines 130-148: file identity step (FileName, FilePath), one shared
try block. -/
def step3 (o : Oracle) : PyM Unit :=
  PyM.tryCatch
    (PyM.bind (callO Event.getTitle o.getTitle) (fun t =>
      PyM.bind (if pyTruthy t then putMeta "FileName" (scalarize t) else PyM.pure ())
        (fun _ =>
          PyM.bind (callO Event.getPathName o.getPathName) (fun pth =>
            if pyTruthy pth then putMeta "FilePath" (scalarize pth) else PyM.pure ()))))
    (fun _ => PyM.pure ())

/-- Lines 150-169: configuration step (ActiveConfiguration,
ConfigurationCount). -/
def step4 (o : Oracle) : PyM Unit :=
  PyM.tryCatch
    (PyM.bind (callO Event.configMgr o.configurationManager) (fun cm =>
      if cm.isSome then
        PyM.bind (callO Event.activeConfig o.activeConfiguration) (fun ac =>
          if ac.isSome then
            PyM.bind (callO Event.configName o.configName) (fun cn =>
              PyM.bind
                (if pyTruthy cn then putMeta "ActiveConfiguration" (scalarize cn)
                 else PyM.pure ())
                (fun _ =>
                  PyM.bind (callO Event.getConfigNames o.getConfigurationNames)
                    (fun cns =>
                      if pyTruthy cns && (pyLenOpt cns).isSome then
                        putMeta "ConfigurationCount" (toString ((pyLenOpt cns).getD 0))
                      else PyM.pure ())))
          else PyM.pure ())
      else PyM.pure ()))
    (fun _ => PyM.pure ())

/-- Lines 171-179: material info, guarded by document type 1; len() on
a value without length raises inside the step's own try. -/
def materialPart (o : Oracle) : PyM Unit :=
  PyM.tryCatch
    (PyM.bind (callO Event.materialProps o.materialPropertyValues) (fun mp =>
      if pyTruthy mp then
        match pyLenOpt mp with
        | Option.none => PyM.throw "object has no len"
        | some n =>
          if 0 < n then
            putMeta "MaterialDensity"
              (if pyTruthy (pyFirst mp) then pyStr (pyFirst mp) else "")
          else PyM.pure ()
      else PyM.pure ()))
    (fun _ => PyM.pure ())

/-- Fixed-point formatting with six fractional digits, rounding half to
even as Python's format does. -/
def rheInt (q : Rat) : Int :=
  let f : Int := q.floor
  let r : Rat := q - (f : Rat)
  if r < 1 / 2 then f
  else if 1 / 2 < r then f + 1
  else if f % 2 = 0 then f else f + 1

def natDigits6 (n : Nat) : String :=
  let s := toString n
  String.mk (List.replicate (6 - s.length) '0') ++ s

def fmt6 (q : Rat) : String :=
  let n := rheInt (q * 1000000)
  let m := n.natAbs
  (if n < 0 then "-" else "") ++ toString (m / 1000000) ++ "." ++ natDigits6 (m % 1000000)

/-- Lines 181-196: mass properties step (Mass, Volume, SurfaceArea),
each attribute stored when present, formatted to six decimals. -/
def massPart (o : Oracle) : PyM Unit :=
  PyM.tryCatch
    (PyM.bind (callO Event.createMassProps o.createMassProperty) (fun mps =>
      match mps with
      | Option.none => PyM.pure ()
      | some mp =>
          PyM.bind
            (match mp.mass with
             | some q => putMeta "Mass" (fmt6 q)
             | Option.none => PyM.pure ())
            (fun _ =>
              PyM.bind
                (match mp.volume with
                 | some q => putMeta "Volume" (fmt6 q)
                 | Option.none => PyM.pure ())
                (fun _ =>
                  match mp.surfaceArea with
                  | some q => putMeta "SurfaceArea" (fmt6 q)
                  | Option.none => PyM.pure ()))))
    (fun _ => PyM.pure ())

/-- Material-and-mass step, the fifth extraction step. -/
def step5 (o : Oracle) (dt : Nat) : PyM Unit :=
  PyM.bind (if dt = 1 then materialPart o else PyM.pure ()) (fun _ => massPart o)

/-- The five extraction steps in source order. -/
def stepAt (o : Oracle) (dt : Nat) : Nat → PyM Unit
  | 0 => step1 o
  | 1 => step2 o
  | 2 => step3 o
  | 3 => step4 o
  | 4 => step5 o dt
  | _ => PyM.pure ()

/-- First n extraction steps in sequence. -/
def runSteps (o : Oracle) (dt : Nat) : Nat → PyM Unit
  | 0 => PyM.pure ()
  | n + 1 => PyM.bind (runSteps o dt n) (fun _ => stepAt o dt n)

/-- Lines 41-196, the body of the outer try: resolve the absolute path,
classify by extension, open the document (raising if no handle), then
run the five extraction steps. -/
def extractBody (o : Oracle) (p : String) : PyM Unit :=
  let ap := o.abspath p
  PyM.bind (docTypeOf (strLower (splitextExt ap))) (fun dt =>
    PyM.bind (openStep o ap dt) (fun _ =>
      PyM.bind getModel (fun m =>
        if m.isSome then runSteps o dt 5 else PyM.throw "Failed to open file")))

/-- Lines 208-223, the body of cleanup's try: close the open document
by its title and drop both references; never calls ExitApp. -/
def cleanupBody (o : Oracle) : PyM Unit :=
  PyM.bind getModel (fun m =>
    PyM.bind
      (if m.isSome then
        PyM.bind (callO Event.getTitle o.getTitle) (fun t =>
          let t' :=
            match t with
            | PyVal.tup [] => PyVal.pystr ""
            | PyVal.tup (x :: _) => x
            | v => v
          PyM.bind getApp (fun a =>
            match a with
            | Option.none => PyM.throw "NoneType has no attribute CloseDoc"
            | some _ =>
                PyM.bind (callO (Event.closeDoc t') o.closeDoc) (fun _ =>
                  setModel Option.none)))
      else PyM.pure ())
      (fun _ =>
        PyM.bind getApp (fun a =>
          if a.isSome then setAppNone else PyM.pure ())))

/-- cleanup (lines 206-225): swallow every error; the entry counter is
instrumentation recording each invocation. -/
def cleanup (o : Oracle) : PyM Unit :=
  PyM.bind bumpCleanup (fun _ =>
    PyM.tryCatch (cleanupBody o) (fun _ => PyM.pure ()))

/-- read_metadata (lines 34-204): fresh metadata dict, connect (early
return on failure), then the guarded extraction body with cleanup in a
finally, returning whatever metadata was assembled. -/
def read_metadata (o : Oracle) (p : String) : PyM (List (String × String)) :=
  PyM.bind resetMeta (fun _ =>
    PyM.bind (connect_to_solidworks o) (fun c =>
      if c then
        PyM.bind
          (PyM.tryFinally
            (PyM.tryCatch (extractBody o p) (fun _ => PyM.pure ()))
            (cleanup o))
          (fun _ => getMeta)
      else getMeta))

/-- Metadata map produced by a finished run. -/
def metaOf : MRes (List (String × String)) → List (String × String)
  | MRes.ok m _ => m
  | MRes.err _ s => s.metadata

/-- State in which main constructs the reader. -/
def initSt : St :=
  { sw_app := Option.none, sw_model := Option.none, metadata := [],
    trace := [], cleanupCount := 0 }

def allowedExts : List String := [".sldprt", ".sldasm", ".slddrw"]

/-- Source function main (lines 227-262): argument count, existence and
extension checks happen before the reader is even constructed; the pair
returned is the metadata map (none on early exit) and the trace of host
interactions. -/
def mainProg (argv : List String) (pathExists : String → Bool) (o : Oracle) :
    Option (List (String × String)) × List Event :=
  match argv with
  | [_, p] =>
      if pathExists p then
        if strLower (splitextExt p) ∈ allowedExts then
          match read_metadata o p initSt with
          | MRes.ok m s => (some m, s.trace)
          | MRes.err _ s => (Option.none, s.trace)
        else (Option.none, [])
      else (Option.none, [])
  | _ => (Option.none, [])

/-! ## Dictionary lemmas -/

/-- Inserting key k leaves the binding of any other key unchanged. -/
theorem lookupD_dictInsert_ne (m : List (String × String)) (k v k₂ : String)
    (h : k₂ ≠ k) : lookupD (dictInsert m k v) k₂ = lookupD m k₂ := by
  induction m with
  | nil => simp [dictInsert, lookupD, if_neg (Ne.symm h)]
  | cons a rest ih =>
      obtain ⟨k', v'⟩ := a
      by_cases hk : k' = k
      · subst hk
        simp [dictInsert, lookupD, if_neg (Ne.symm h)]
      · simp [dictInsert, if_neg hk, lookupD, ih]

/-- Inserting key k makes it looked up as v. -/
theorem lookupD_dictInsert_self (m : List (String × String)) (k v : String) :
    lookupD (dictInsert m k v) k = some v := by
  induction m with
  | nil => simp [dictInsert, lookupD]
  | cons a rest ih =>
      obtain ⟨k', v'⟩ := a
      by_cases hk : k' = k
      · subst hk; simp [dictInsert, lookupD]
      · simp [dictInsert, if_neg hk, lookupD, if_neg hk, ih]

/-! ## String prefix machinery for the key namespaces -/

/-- Boolean list-prefix test. -/
def hasPrefixL : List Char → List Char → Bool
  | [], _ => true
  | _ :: _, [] => false
  | a :: ps, b :: ks => a == b && hasPrefixL ps ks

/-- Boolean string-prefix test. -/
def strHasPrefix (p s : String) : Bool := hasPrefixL p.data s.data

theorem hasPrefixL_append (p t : List Char) : hasPrefixL p (p ++ t) = true := by
  induction p with
  | nil => rfl
  | cons a ps ih => simp [hasPrefixL, ih]

theorem strHasPrefix_append (p t : String) : strHasPrefix p (p ++ t) = true := by
  show hasPrefixL p.data (p ++ t).data = true
  have hd : (p ++ t).data = p.data ++ t.data := String.data_append p t
  rw [hd]
  exact hasPrefixL_append p.data t.data

/-- A string without prefix p is not p followed by anything. -/
theorem ne_of_no_pfx {p k : String} (h : strHasPrefix p k = false) (t : String) :
    p ++ t ≠ k := by
  intro hk
  rw [← hk, strHasPrefix_append] at h
  simp at h

/-- Two prefixes of one string that differ in their first character
cannot both hold. -/
theorem prefix_head_ne {a b : Char} {pa pb : List Char} {k : List Char}
    (hab : a ≠ b) (h1 : hasPrefixL (a :: pa) k = true) :
    hasPrefixL (b :: pb) k = false := by
  cases k with
  | nil => simp [hasPrefixL] at h1
  | cons c ks =>
      simp only [hasPrefixL, Bool.and_eq_true, beq_iff_eq] at h1
      have hbc : (b == c) = false := by
        refine beq_eq_false_iff_ne.mpr ?_
        intro hbc
        exact hab (h1.1.trans hbc.symm)
      simp [hasPrefixL, hbc]

/-! ## Preservation framework over the embedding -/

/-- Metadata insertion at the state level. -/
def insMeta (s : St) (k v : String) : St :=
  { s with metadata := dictInsert s.metadata k v }

/-- A fragment preserves the observation f of the state, on both the
normal and the exceptional path. -/
def Pres {γ α : Type} (f : St → γ) (m : PyM α) : Prop :=
  ∀ s, f (stOf (m s)) = f s

theorem pres_pure {γ α : Type} (f : St → γ) (a : α) : Pres f (PyM.pure a) :=
  fun _ => rfl

theorem pres_throw {γ α : Type} (f : St → γ) (e : Err) :
    Pres f (PyM.throw (α := α) e) :=
  fun _ => rfl

theorem pres_bind {γ α β : Type} {f : St → γ} {m : PyM α} {k : α → PyM β}
    (h1 : Pres f m) (h2 : ∀ a, Pres f (k a)) : Pres f (PyM.bind m k) := by
  intro s
  have e1 := h1 s
  unfold PyM.bind
  cases hm : m s with
  | ok a s' =>
      rw [hm] at e1
      exact (h2 a s').trans e1
  | err e s' =>
      rw [hm] at e1
      exact e1

theorem pres_tryCatch {γ α : Type} {f : St → γ} {m : PyM α} {h : Err → PyM α}
    (h1 : Pres f m) (h2 : ∀ e, Pres f (h e)) : Pres f (PyM.tryCatch m h) := by
  intro s
  have e1 := h1 s
  unfold PyM.tryCatch
  cases hm : m s with
  | ok a s' =>
      rw [hm] at e1
      exact e1
  | err e s' =>
      rw [hm] at e1
      exact (h2 e s').trans e1

theorem stOf_tryFinally {α : Type} (m : PyM α) (fin : PyM Unit) (s : St) :
    stOf (PyM.tryFinally m fin s) = stOf (fin (stOf (m s))) := by
  unfold PyM.tryFinally
  split
  next a s' hm =>
    rw [hm]
    split
    next s'' hf => simp [stOf, hf]
    next e s'' hf => simp [stOf, hf]
  next e s' hm =>
    rw [hm]
    split
    next s'' hf => simp [stOf, hf]
    next e' s'' hf => simp [stOf, hf]

/-- A run of try/finally where body and finaliser both return normally. -/
theorem tryFinally_run {α : Type} {m : PyM α} {fin : PyM Unit} {s s' s'' : St}
    {a : α} (hm : m s = MRes.ok a s') (hf : fin s' = MRes.ok () s'') :
    PyM.tryFinally m fin s = MRes.ok a s'' := by
  unfold PyM.tryFinally
  split
  next a2 s2 hm2 =>
    rw [hm] at hm2
    injection hm2 with h1 h2
    subst h1; subst h2
    split
    next s3 hf2 => rw [hf] at hf2; injection hf2 with h3 h4; subst h4; rfl
    next e s3 hf2 => rw [hf] at hf2; simp at hf2
  next e s2 hm2 => rw [hm] at hm2; simp at hm2

theorem pres_tryFinally {γ α : Type} {f : St → γ} {m : PyM α} {fin : PyM Unit}
    (h1 : Pres f m) (h2 : Pres f fin) : Pres f (PyM.tryFinally m fin) := by
  intro s
  rw [stOf_tryFinally]
  exact (h2 _).trans (h1 s)

theorem pres_ite {γ α : Type} {f : St → γ} (c : Prop) [Decidable c]
    {m₁ m₂ : PyM α} (h1 : Pres f m₁) (h2 : Pres f m₂) :
    Pres f (if c then m₁ else m₂) := by
  by_cases hc : c
  · simpa [hc] using h1
  · simpa [hc] using h2

theorem pres_callO {γ α : Type} (f : St → γ) (e : Event) (r : Except Err α)
    (hf : ∀ s, f (addTrace s e) = f s) : Pres f (callO e r) := by
  intro s
  cases r with
  | ok a => exact hf s
  | error msg => exact hf s

theorem pres_putMeta {γ : Type} (f : St → γ) (k v : String)
    (hf : ∀ s, f (insMeta s k v) = f s) : Pres f (putMeta k v) :=
  fun s => hf s

theorem pres_getMeta {γ : Type} (f : St → γ) : Pres f getMeta := fun _ => rfl
theorem pres_getModel {γ : Type} (f : St → γ) : Pres f getModel := fun _ => rfl
theorem pres_getApp {γ : Type} (f : St → γ) : Pres f getApp := fun _ => rfl

theorem pres_setApp {γ : Type} (f : St → γ)
    (hf : ∀ s, f { s with sw_app := some () } = f s) : Pres f setApp :=
  fun s => hf s

theorem pres_setAppNone {γ : Type} (f : St → γ)
    (hf : ∀ s, f { s with sw_app := Option.none } = f s) : Pres f setAppNone :=
  fun s => hf s

theorem pres_setModel {γ : Type} (f : St → γ) (h : Option Unit)
    (hf : ∀ s h', f { s with sw_model := h' } = f s) : Pres f (setModel h) :=
  fun s => hf s h

theorem pres_bumpCleanup {γ : Type} (f : St → γ)
    (hf : ∀ s, f { s with cleanupCount := s.cleanupCount + 1 } = f s) :
    Pres f bumpCleanup :=
  fun s => hf s

/-! ## Never-raises framework -/

/-- A fragment that always returns normally. -/
def OkM {α : Type} (m : PyM α) : Prop := ∀ s, ∃ a s', m s = MRes.ok a s'

theorem okM_pure {α : Type} (a : α) : OkM (PyM.pure a) :=
  fun s => ⟨a, s, rfl⟩

theorem okM_bind {α β : Type} {m : PyM α} {k : α → PyM β}
    (h1 : OkM m) (h2 : ∀ a, OkM (k a)) : OkM (PyM.bind m k) := by
  intro s
  obtain ⟨a, s', hm⟩ := h1 s
  obtain ⟨b, s'', hk⟩ := h2 a s'
  exact ⟨b, s'', by unfold PyM.bind; rw [hm]; exact hk⟩

/-- A try/except whose handler always returns normally returns normally,
whatever the body does. -/
theorem okM_tryCatch {α : Type} (m : PyM α) {h : Err → PyM α}
    (hh : ∀ e, OkM (h e)) : OkM (PyM.tryCatch m h) := by
  intro s
  unfold PyM.tryCatch
  cases hm : m s with
  | ok a s' => exact ⟨a, s', rfl⟩
  | err e s' =>
      obtain ⟨a, s'', hk⟩ := hh e s'
      exact ⟨a, s'', hk⟩

theorem okM_tryFinally {α : Type} {m : PyM α} {fin : PyM Unit}
    (h1 : OkM m) (h2 : OkM fin) : OkM (PyM.tryFinally m fin) := by
  intro s
  obtain ⟨a, s', hm⟩ := h1 s
  obtain ⟨b, s'', hf⟩ := h2 s'
  exact ⟨a, s'', tryFinally_run hm hf⟩

theorem okM_ite {α : Type} (c : Prop) [Decidable c] {m₁ m₂ : PyM α}
    (h1 : OkM m₁) (h2 : OkM m₂) : OkM (if c then m₁ else m₂) := by
  by_cases hc : c
  · simpa [hc] using h1
  · simpa [hc] using h2

theorem okM_getMeta : OkM getMeta := fun s => ⟨s.metadata, s, rfl⟩
theorem okM_resetMeta : OkM resetMeta :=
  fun s => ⟨(), { s with metadata := [] }, rfl⟩

/-! ## Preservation of state observations by each program fragment.
Each lemma is generic in the observation f; the hypotheses say f ignores
trace growth by non-ExitApp events, the state fields the fragment
writes, and the metadata keys the fragment may insert. -/

theorem pres_docTypeOf {γ : Type} (f : St → γ) (ext : String) :
    Pres f (docTypeOf ext) := by
  unfold docTypeOf
  apply pres_ite
  · exact pres_pure f 1
  apply pres_ite
  · exact pres_pure f 2
  apply pres_ite
  · exact pres_pure f 3
  · exact pres_throw f _

theorem pres_pyIterM {γ : Type} (f : St → γ) (v : PyVal) :
    Pres f (pyIterM v) := by
  unfold pyIterM
  cases v
  · exact pres_throw f _
  · exact pres_pure f _
  · exact pres_throw f _
  · exact pres_pure f _

theorem connect_pres {γ : Type} {o : Oracle} (f : St → γ)
    (hT : ∀ s e, isExitEv e = false → f (addTrace s e) = f s)
    (hA : ∀ s, f { s with sw_app := some () } = f s) :
    Pres f (connect_to_solidworks o) := by
  unfold connect_to_solidworks
  apply pres_tryCatch
  · apply pres_bind
    · apply pres_tryCatch
      · apply pres_bind
        · exact pres_callO f _ _ (fun s => hT s _ rfl)
        · intro _; exact pres_setApp f hA
      · intro _
        apply pres_bind
        · exact pres_callO f _ _ (fun s => hT s _ rfl)
        · intro _; exact pres_setApp f hA
    · intro _
      apply pres_bind
      · exact pres_callO f _ _ (fun s => hT s _ rfl)
      · intro _; exact pres_pure f _
  · intro _; exact pres_pure f _

theorem openStep_pres {γ : Type} {o : Oracle} (f : St → γ) (ap : String) (dt : Nat)
    (hT : ∀ s e, isExitEv e = false → f (addTrace s e) = f s)
    (hMo : ∀ s h', f { s with sw_model := h' } = f s) :
    Pres f (openStep o ap dt) := by
  unfold openStep
  apply pres_tryCatch
  · apply pres_bind
    · exact pres_callO f _ _ (fun s => hT s _ rfl)
    · intro h'; exact pres_setModel f h' hMo
  · intro _
    apply pres_bind
    · exact pres_callO f _ _ (fun s => hT s _ rfl)
    · intro h'; exact pres_setModel f h' hMo

theorem customStore_pres {γ : Type} (f : St → γ) (n v : PyVal)
    (hM1 : ∀ s t w, f (insMeta s ("Custom_" ++ t) w) = f s) :
    Pres f (customStore n v) := by
  unfold customStore
  cases v with
  | tup xs =>
      cases xs with
      | nil => exact pres_putMeta f _ _ (fun s => hM1 s _ _)
      | cons x rest => exact pres_putMeta f _ _ (fun s => hM1 s _ _)
  | none => exact pres_putMeta f _ _ (fun s => hM1 s _ _)
  | pystr t => exact pres_putMeta f _ _ (fun s => hM1 s _ _)
  | pynum q r => exact pres_putMeta f _ _ (fun s => hM1 s _ _)

theorem customLoop_pres {γ : Type} {o : Oracle} (f : St → γ)
    (hT : ∀ s e, isExitEv e = false → f (addTrace s e) = f s)
    (hM1 : ∀ s t w, f (insMeta s ("Custom_" ++ t) w) = f s) :
    ∀ l, Pres f (customLoop o l) := by
  intro l
  induction l with
  | nil => exact pres_pure f ()
  | cons n rest ih =>
      simp only [customLoop]
      apply pres_bind
      · apply pres_tryCatch
        · apply pres_bind
          · exact pres_callO f _ _ (fun s => hT s _ rfl)
          · intro v
            apply pres_ite
            · exact customStore_pres f n v hM1
            · exact pres_pure f ()
        · intro _; exact pres_pure f ()
      · intro _; exact ih

theorem step1_pres {γ : Type} {o : Oracle} (f : St → γ)
    (hT : ∀ s e, isExitEv e = false → f (addTrace s e) = f s)
    (hM1 : ∀ s t w, f (insMeta s ("Custom_" ++ t) w) = f s) :
    Pres f (step1 o) := by
  unfold step1
  apply pres_tryCatch
  · apply pres_bind
    · exact pres_callO f _ _ (fun s => hT s _ rfl)
    · intro pm
      apply pres_ite
      · apply pres_bind
        · exact pres_callO f _ _ (fun s => hT s _ rfl)
        · intro pnr
          apply pres_ite
          · apply pres_ite
            · apply pres_bind
              · exact pres_pyIterM f _
              · intro names; exact customLoop_pres f hT hM1 names
            · exact pres_pure f ()
          · exact pres_pure f ()
      · exact pres_pure f ()
  · intro _; exact pres_pure f ()

theorem summaryLoop_pres {γ : Type} {o : Oracle} (f : St → γ)
    (hT : ∀ s e, isExitEv e = false → f (addTrace s e) = f s)
    (hM2 : ∀ s t w, f (insMeta s ("Summary_" ++ t) w) = f s) :
    ∀ l, Pres f (summaryLoop o l) := by
  intro l
  induction l with
  | nil => exact pres_pure f ()
  | cons p rest ih =>
      obtain ⟨i, nm⟩ := p
      simp only [summaryLoop]
      apply pres_bind
      · apply pres_tryCatch
        · apply pres_bind
          · exact pres_callO f _ _ (fun s => hT s _ rfl)
          · intro v
            apply pres_ite
            · exact pres_putMeta f _ _ (fun s => hM2 s _ _)
            · exact pres_pure f ()
        · intro _; exact pres_pure f ()
      · intro _; exact ih

theorem step2_pres {γ : Type} {o : Oracle} (f : St → γ)
    (hT : ∀ s e, isExitEv e = false → f (addTrace s e) = f s)
    (hM2 : ∀ s t w, f (insMeta s ("Summary_" ++ t) w) = f s) :
    Pres f (step2 o) :=
  summaryLoop_pres f hT hM2 summaryFields

theorem step3_pres {γ : Type} {o : Oracle} (f : St → γ)
    (hT : ∀ s e, isExitEv e = false → f (addTrace s e) = f s)
    (hF1 : ∀ s w, f (insMeta s "FileName" w) = f s)
    (hF2 : ∀ s w, f (insMeta s "FilePath" w) = f s) :
    Pres f (step3 o) := by
  unfold step3
  apply pres_tryCatch
  · apply pres_bind
    · exact pres_callO f _ _ (fun s => hT s _ rfl)
    · intro t
      apply pres_bind
      · apply pres_ite
        · exact pres_putMeta f _ _ (fun s => hF1 s _)
        · exact pres_pure f ()
      · intro _
        apply pres_bind
        · exact pres_callO f _ _ (fun s => hT s _ rfl)
        · intro pth
          apply pres_ite
          · exact pres_putMeta f _ _ (fun s => hF2 s _)
          · exact pres_pure f ()
  · intro _; exact pres_pure f ()

theorem step4_pres {γ : Type} {o : Oracle} (f : St → γ)
    (hT : ∀ s e, isExitEv e = false → f (addTrace s e) = f s)
    (hAC : ∀ s w, f (insMeta s "ActiveConfiguration" w) = f s)
    (hCC : ∀ s w, f (insMeta s "ConfigurationCount" w) = f s) :
    Pres f (step4 o) := by
  unfold step4
  apply pres_tryCatch
  · apply pres_bind
    · exact pres_callO f _ _ (fun s => hT s _ rfl)
    · intro cm
      apply pres_ite
      · apply pres_bind
        · exact pres_callO f _ _ (fun s => hT s _ rfl)
        · intro ac
          apply pres_ite
          · apply pres_bind
            · exact pres_callO f _ _ (fun s => hT s _ rfl)
            · intro cn
              apply pres_bind
              · apply pres_ite
                · exact pres_putMeta f _ _ (fun s => hAC s _)
                · exact pres_pure f ()
              · intro _
                apply pres_bind
                · exact pres_callO f _ _ (fun s => hT s _ rfl)
                · intro cns
                  apply pres_ite
                  · exact pres_putMeta f _ _ (fun s => hCC s _)
                  · exact pres_pure f ()
          · exact pres_pure f ()
      · exact pres_pure f ()
  · intro _; exact pres_pure f ()

theorem materialPart_pres {γ : Type} {o : Oracle} (f : St → γ)
    (hT : ∀ s e, isExitEv e = false → f (addTrace s e) = f s)
    (hMD : ∀ s w, f (insMeta s "MaterialDensity" w) = f s) :
    Pres f (materialPart o) := by
  unfold materialPart
  apply pres_tryCatch
  · apply pres_bind
    · exact pres_callO f _ _ (fun s => hT s _ rfl)
    · intro mp
      apply pres_ite
      · cases pyLenOpt mp with
        | none => exact pres_throw f _
        | some n =>
            apply pres_ite
            · exact pres_putMeta f _ _ (fun s => hMD s _)
            · exact pres_pure f ()
      · exact pres_pure f ()
  · intro _; exact pres_pure f ()

theorem massPart_pres {γ : Type} {o : Oracle} (f : St → γ)
    (hT : ∀ s e, isExitEv e = false → f (addTrace s e) = f s)
    (hMa : ∀ s w, f (insMeta s "Mass" w) = f s)
    (hVo : ∀ s w, f (insMeta s "Volume" w) = f s)
    (hSA : ∀ s w, f (insMeta s "SurfaceArea" w) = f s) :
    Pres f (massPart o) := by
  unfold massPart
  apply pres_tryCatch
  · apply pres_bind
    · exact pres_callO f _ _ (fun s => hT s _ rfl)
    · intro mps
      cases mps with
      | none => exact pres_pure f ()
      | some mp =>
          apply pres_bind
          · cases mp.mass with
            | none => exact pres_pure f ()
            | some q => exact pres_putMeta f _ _ (fun s => hMa s _)
          · intro _
            apply pres_bind
            · cases mp.volume with
              | none => exact pres_pure f ()
              | some q => exact pres_putMeta f _ _ (fun s => hVo s _)
            · intro _
              cases mp.surfaceArea with
              | none => exact pres_pure f ()
              | some q => exact pres_putMeta f _ _ (fun s => hSA s _)
  · intro _; exact pres_pure f ()

theorem step5_pres {γ : Type} {o : Oracle} (f : St → γ) (dt : Nat)
    (hT : ∀ s e, isExitEv e = false → f (addTrace s e) = f s)
    (hMD : dt = 1 → ∀ s w, f (insMeta s "MaterialDensity" w) = f s)
    (hMa : ∀ s w, f (insMeta s "Mass" w) = f s)
    (hVo : ∀ s w, f (insMeta s "Volume" w) = f s)
    (hSA : ∀ s w, f (insMeta s "SurfaceArea" w) = f s) :
    Pres f (step5 o dt) := by
  unfold step5
  apply pres_bind
  · by_cases hdt : dt = 1
    · simpa [hdt] using materialPart_pres f hT (hMD hdt)
    · simpa [hdt] using pres_pure f ()
  · intro _; exact massPart_pres f hT hMa hVo hSA

theorem cleanupBody_pres {γ : Type} {o : Oracle} (f : St → γ)
    (hT : ∀ s e, isExitEv e = false → f (addTrace s e) = f s)
    (hMo : ∀ s h', f { s with sw_model := h' } = f s)
    (hAN : ∀ s, f { s with sw_app := Option.none } = f s) :
    Pres f (cleanupBody o) := by
  unfold cleanupBody
  apply pres_bind
  · exact pres_getModel f
  · intro m
    apply pres_bind
    · apply pres_ite
      · apply pres_bind
        · exact pres_callO f _ _ (fun s => hT s _ rfl)
        · intro t
          apply pres_bind
          · exact pres_getApp f
          · intro a
            cases a with
            | none => exact pres_throw f _
            | some u =>
                apply pres_bind
                · exact pres_callO f _ _ (fun s => hT s _ rfl)
                · intro _; exact pres_setModel f _ hMo
      · exact pres_pure f ()
    · intro _
      apply pres_bind
      · exact pres_getApp f
      · intro a
        apply pres_ite
        · exact pres_setAppNone f hAN
        · exact pres_pure f ()

theorem cleanup_pres {γ : Type} {o : Oracle} (f : St → γ)
    (hT : ∀ s e, isExitEv e = false → f (addTrace s e) = f s)
    (hMo : ∀ s h', f { s with sw_model := h' } = f s)
    (hAN : ∀ s, f { s with sw_app := Option.none } = f s)
    (hB : ∀ s, f { s with cleanupCount := s.cleanupCount + 1 } = f s) :
    Pres f (cleanup o) := by
  unfold cleanup
  apply pres_bind
  · exact pres_bumpCleanup f hB
  · intro _
    apply pres_tryCatch
    · exact cleanupBody_pres f hT hMo hAN
    · intro _; exact pres_pure f ()

/-! ## Key namespaces of the five extraction steps -/

/-- The observation of one metadata key. -/
def metaLook (k : String) (s : St) : Option String := lookupD s.metadata k

/-- Keys that step i (0-based) may write. -/
def nsPred : Nat → String → Prop
  | 0, k => strHasPrefix "Custom_" k = true
  | 1, k => strHasPrefix "Summary_" k = true
  | 2, k => k = "FileName" ∨ k = "FilePath"
  | 3, k => k = "ActiveConfiguration" ∨ k = "ConfigurationCount"
  | 4, k => k = "MaterialDensity" ∨ k = "Mass" ∨ k = "Volume" ∨ k = "SurfaceArea"
  | _ + 5, _ => False

/-- A prefix starting with one character excludes a prefix starting
with a different character. -/
theorem prefix_excl {p q k : String} {c d : Char} {pt qt : List Char}
    (hp : p.data = c :: pt) (hq : q.data = d :: qt) (hcd : c ≠ d)
    (h1 : strHasPrefix p k = true) : strHasPrefix q k = false := by
  unfold strHasPrefix at h1 ⊢
  rw [hp] at h1
  rw [hq]
  exact prefix_head_ne hcd h1

theorem custom_excl_summary {k : String} (h : strHasPrefix "Custom_" k = true) :
    strHasPrefix "Summary_" k = false :=
  prefix_excl rfl rfl (by decide) h

theorem summary_excl_custom {k : String} (h : strHasPrefix "Summary_" k = true) :
    strHasPrefix "Custom_" k = false :=
  prefix_excl rfl rfl (by decide) h

/-- The five step namespaces are pairwise disjoint. -/
theorem ns_disjoint (i j : Nat) (k : String) (hij : i ≠ j)
    (h1 : nsPred i k) : ¬ nsPred j k := by
  intro h2
  match i, j with
  | 0, 0 => exact hij rfl
  | 1, 1 => exact hij rfl
  | 2, 2 => exact hij rfl
  | 3, 3 => exact hij rfl
  | 4, 4 => exact hij rfl
  | _ + 5, _ => exact h1.elim
  | _, _ + 5 => exact h2.elim
  | 0, 1 => simp [nsPred] at h1 h2; rw [custom_excl_summary h1] at h2; simp at h2
  | 1, 0 => simp [nsPred] at h1 h2; rw [summary_excl_custom h1] at h2; simp at h2
  | 0, 2 => rcases h2 with h | h <;> (subst h; exact absurd (show strHasPrefix "Custom_" _ = true from h1) (by decide))
  | 0, 3 => rcases h2 with h | h <;> (subst h; exact absurd (show strHasPrefix "Custom_" _ = true from h1) (by decide))
  | 0, 4 => rcases h2 with h | h | h | h <;> (subst h; exact absurd (show strHasPrefix "Custom_" _ = true from h1) (by decide))
  | 1, 2 => rcases h2 with h | h <;> (subst h; exact absurd (show strHasPrefix "Summary_" _ = true from h1) (by decide))
  | 1, 3 => rcases h2 with h | h <;> (subst h; exact absurd (show strHasPrefix "Summary_" _ = true from h1) (by decide))
  | 1, 4 => rcases h2 with h | h | h | h <;> (subst h; exact absurd (show strHasPrefix "Summary_" _ = true from h1) (by decide))
  | 2, 0 => rcases h1 with h | h <;> (subst h; exact absurd (show strHasPrefix "Custom_" _ = true from h2) (by decide))
  | 2, 1 => rcases h1 with h | h <;> (subst h; exact absurd (show strHasPrefix "Summary_" _ = true from h2) (by decide))
  | 3, 0 => rcases h1 with h | h <;> (subst h; exact absurd (show strHasPrefix "Custom_" _ = true from h2) (by decide))
  | 3, 1 => rcases h1 with h | h <;> (subst h; exact absurd (show strHasPrefix "Summary_" _ = true from h2) (by decide))
  | 4, 0 => rcases h1 with h | h | h | h <;> (subst h; exact absurd (show strHasPrefix "Custom_" _ = true from h2) (by decide))
  | 4, 1 => rcases h1 with h | h | h | h <;> (subst h; exact absurd (show strHasPrefix "Summary_" _ = true from h2) (by decide))
  | 2, 3 => rcases h1 with h | h <;> rcases h2 with h' | h' <;> (subst h; simp at h')
  | 2, 4 => rcases h1 with h | h <;> rcases h2 with h' | h' | h' | h' <;> (subst h; simp at h')
  | 3, 2 => rcases h1 with h | h <;> rcases h2 with h' | h' <;> (subst h; simp at h')
  | 3, 4 => rcases h1 with h | h <;> rcases h2 with h' | h' | h' | h' <;> (subst h; simp at h')
  | 4, 2 => rcases h1 with h | h | h | h <;> rcases h2 with h' | h' <;> (subst h; simp at h')
  | 4, 3 => rcases h1 with h | h | h | h <;> rcases h2 with h' | h' <;> (subst h; simp at h')

/-- Step i leaves every key outside its namespace untouched, whatever
the oracle answers. -/
theorem stepAt_keep {o : Oracle} {dt : Nat} (i : Nat) (k : String)
    (h : ¬ nsPred i k) : Pres (metaLook k) (stepAt o dt i) := by
  match i with
  | 0 =>
      have hC : strHasPrefix "Custom_" k = false := by
        cases hcb : strHasPrefix "Custom_" k
        · rfl
        · exact absurd hcb h
      exact step1_pres (metaLook k) (fun _ _ _ => rfl)
        (fun s t w => lookupD_dictInsert_ne _ _ _ _ (Ne.symm (ne_of_no_pfx hC t)))
  | 1 =>
      have hS : strHasPrefix "Summary_" k = false := by
        cases hcb : strHasPrefix "Summary_" k
        · rfl
        · exact absurd hcb h
      exact step2_pres (metaLook k) (fun _ _ _ => rfl)
        (fun s t w => lookupD_dictInsert_ne _ _ _ _ (Ne.symm (ne_of_no_pfx hS t)))
  | 2 =>
      exact step3_pres (metaLook k) (fun _ _ _ => rfl)
        (fun s w => lookupD_dictInsert_ne _ _ _ _ (fun he => h (Or.inl he)))
        (fun s w => lookupD_dictInsert_ne _ _ _ _ (fun he => h (Or.inr he)))
  | 3 =>
      exact step4_pres (metaLook k) (fun _ _ _ => rfl)
        (fun s w => lookupD_dictInsert_ne _ _ _ _ (fun he => h (Or.inl he)))
        (fun s w => lookupD_dictInsert_ne _ _ _ _ (fun he => h (Or.inr he)))
  | 4 =>
      exact step5_pres (metaLook k) dt (fun _ _ _ => rfl)
        (fun _ => fun s w => lookupD_dictInsert_ne _ _ _ _ (fun he => h (Or.inl he)))
        (fun s w => lookupD_dictInsert_ne _ _ _ _ (fun he => h (Or.inr (Or.inl he))))
        (fun s w => lookupD_dictInsert_ne _ _ _ _ (fun he => h (Or.inr (Or.inr (Or.inl he)))))
        (fun s w => lookupD_dictInsert_ne _ _ _ _ (fun he => h (Or.inr (Or.inr (Or.inr he)))))
  | n + 5 => exact pres_pure (metaLook k) ()

/-! ## Run-level helper lemmas -/

/-- Keys present after the first n steps, starting from an empty map,
belong to the namespace of one of those steps. -/
theorem runSteps_dom {o : Oracle} {dt : Nat} (n : Nat) (k : String) (s0 : St)
    (h0 : s0.metadata = []) :
    metaLook k (stOf (runSteps o dt n s0)) ≠ Option.none →
      ∃ i, i < n ∧ nsPred i k := by
  induction n with
  | zero =>
      intro hne
      exact absurd (by simp [runSteps, PyM.pure, stOf, metaLook, h0, lookupD]) hne
  | succ n ih =>
      intro hne
      simp only [runSteps, PyM.bind] at hne
      cases hr : runSteps o dt n s0 with
      | ok a s' =>
          simp only [hr] at hne
          by_cases hns : nsPred n k
          · exact ⟨n, Nat.lt_succ_self n, hns⟩
          · rw [stepAt_keep n k hns s'] at hne
            have hs' : metaLook k (stOf (runSteps o dt n s0)) ≠ Option.none := by
              rw [hr]; exact hne
            obtain ⟨i, hi, hnsi⟩ := ih hs'
            exact ⟨i, Nat.lt_succ_of_lt hi, hnsi⟩
      | err e s' =>
          simp only [hr] at hne
          have hs' : metaLook k (stOf (runSteps o dt n s0)) ≠ Option.none := by
            rw [hr]; exact hne
          obtain ⟨i, hi, hnsi⟩ := ih hs'
          exact ⟨i, Nat.lt_succ_of_lt hi, hnsi⟩

/-- Running a bind whose first fragment is known to return normally. -/
theorem bind_run {α β : Type} {m : PyM α} {k : α → PyM β} {s s' : St} {a : α}
    (hm : m s = MRes.ok a s') : PyM.bind m k s = k a s' := by
  unfold PyM.bind
  rw [hm]

/-- Running a bind whose first fragment is known to raise. -/
theorem bind_run_err {α β : Type} {m : PyM α} {k : α → PyM β} {s s' : St}
    {e : Err} (hm : m s = MRes.err e s') : PyM.bind m k s = MRes.err e s' := by
  unfold PyM.bind
  rw [hm]

/-- cleanup always returns normally. -/
theorem okM_cleanup (o : Oracle) : OkM (cleanup o) := by
  unfold cleanup
  apply okM_bind
  · exact fun s => ⟨(), _, rfl⟩
  · intro _
    exact okM_tryCatch _ (fun _ => okM_pure ())

/-- cleanup never touches the metadata map. -/
theorem cleanup_meta (o : Oracle) (s : St) :
    (stOf (cleanup o s)).metadata = s.metadata :=
  cleanup_pres (fun st => st.metadata) (fun _ _ _ => rfl) (fun _ _ => rfl)
    (fun _ => rfl) (fun _ => rfl) s

/-- Every cleanup invocation bumps the instrumentation counter exactly
once. -/
theorem cleanup_count (o : Oracle) (s : St) :
    (stOf (cleanup o s)).cleanupCount = s.cleanupCount + 1 := by
  have hb : cleanup o s =
      PyM.tryCatch (cleanupBody o) (fun _ => PyM.pure ())
        { s with cleanupCount := s.cleanupCount + 1 } := by
    unfold cleanup PyM.bind bumpCleanup
    rfl
  rw [hb]
  exact pres_tryCatch
    (cleanupBody_pres (fun st => st.cleanupCount) (fun _ _ _ => rfl)
      (fun _ _ => rfl) (fun _ => rfl))
    (fun _ => pres_pure _ _) _

/-- connect_to_solidworks always returns normally (with a Bool). -/
theorem okM_connect (o : Oracle) : OkM (connect_to_solidworks o) :=
  okM_tryCatch _ (fun _ => okM_pure false)

/-- connect_to_solidworks never touches the metadata map. -/
theorem connect_meta (o : Oracle) (s : St) :
    (stOf (connect_to_solidworks o s)).metadata = s.metadata :=
  connect_pres (fun st => st.metadata) (fun _ _ _ => rfl) (fun _ => rfl) s

/-- connect_to_solidworks does not change the cleanup counter. -/
theorem connect_count (o : Oracle) (s : St) :
    (stOf (connect_to_solidworks o s)).cleanupCount = s.cleanupCount :=
  connect_pres (fun st => st.cleanupCount) (fun _ _ _ => rfl) (fun _ => rfl) s

/-- Decomposition of a run whose connection step returned True: the
guarded body runs, then cleanup, and the metadata returned is exactly
the metadata after the guarded body. -/
theorem read_run_true (o : Oracle) (p : String) (s s₁ : St)
    (hc : connect_to_solidworks o { s with metadata := [] } = MRes.ok true s₁) :
    ∃ s₂ s₃,
      PyM.tryCatch (extractBody o p) (fun _ => PyM.pure ()) s₁ = MRes.ok () s₂ ∧
      cleanup o s₂ = MRes.ok () s₃ ∧
      read_metadata o p s = MRes.ok s₃.metadata s₃ ∧
      s₃.metadata = s₂.metadata := by
  obtain ⟨a, s₂, h2⟩ := okM_tryCatch (extractBody o p) (fun _ => okM_pure ()) s₁
  obtain ⟨b, s₃, h3⟩ := okM_cleanup o s₂
  cases a
  cases b
  refine ⟨s₂, s₃, h2, h3, ?_, ?_⟩
  · have hfin : PyM.tryFinally
        (PyM.tryCatch (extractBody o p) (fun _ => PyM.pure ())) (cleanup o) s₁ =
        MRes.ok () s₃ := tryFinally_run h2 h3
    unfold read_metadata
    simp only [bind_run (show resetMeta s = MRes.ok () { s with metadata := [] } from rfl)]
    simp only [bind_run hc]
    simp only [if_true]
    simp only [bind_run hfin]
    rfl
  · have := cleanup_meta o s₂
    rw [h3] at this
    exact this

/-- Decomposition of a run whose connection step returned False: the
empty map is returned with no further work. -/
theorem read_run_false (o : Oracle) (p : String) (s s₁ : St)
    (hc : connect_to_solidworks o { s with metadata := [] } = MRes.ok false s₁) :
    read_metadata o p s = MRes.ok s₁.metadata s₁ := by
  unfold read_metadata
  simp only [bind_run (show resetMeta s = MRes.ok () { s with metadata := [] } from rfl)]
  simp only [bind_run hc]
  rw [if_neg (by decide)]
  rfl

/-! ## Bundled preservation across the whole extraction body -/

theorem countExit_addTrace {e : Event} (he : isExitEv e = false) (s : St) :
    countExit (addTrace s e).trace = countExit s.trace := by
  simp [addTrace, countExit, List.filter_append, he]

theorem pyBind_pure {α β : Type} (a : α) (k : α → PyM β) :
    PyM.bind (PyM.pure a) k = k a := by
  funext s
  unfold PyM.bind PyM.pure
  rfl

/-- Any step preserves an observation blind to traces and to every
metadata insertion. -/
theorem stepAt_pres_all {γ : Type} {o : Oracle} {dt : Nat} (f : St → γ) (i : Nat)
    (hT : ∀ s e, isExitEv e = false → f (addTrace s e) = f s)
    (hMeta : ∀ s k v, f (insMeta s k v) = f s) :
    Pres f (stepAt o dt i) := by
  match i with
  | 0 => exact step1_pres f hT (fun s t w => hMeta s _ w)
  | 1 => exact step2_pres f hT (fun s t w => hMeta s _ w)
  | 2 => exact step3_pres f hT (fun s w => hMeta s _ w) (fun s w => hMeta s _ w)
  | 3 => exact step4_pres f hT (fun s w => hMeta s _ w) (fun s w => hMeta s _ w)
  | 4 =>
      exact step5_pres f dt hT (fun _ s w => hMeta s _ w) (fun s w => hMeta s _ w)
        (fun s w => hMeta s _ w) (fun s w => hMeta s _ w)
  | n + 5 => exact pres_pure f ()

theorem runSteps_pres_all {γ : Type} {o : Oracle} {dt : Nat} (f : St → γ) (n : Nat)
    (hT : ∀ s e, isExitEv e = false → f (addTrace s e) = f s)
    (hMeta : ∀ s k v, f (insMeta s k v) = f s) :
    Pres f (runSteps o dt n) := by
  induction n with
  | zero => exact pres_pure f ()
  | succ n ih =>
      simp only [runSteps]
      exact pres_bind ih (fun _ => stepAt_pres_all f n hT hMeta)

theorem extractBody_pres {γ : Type} {o : Oracle} (f : St → γ) (p : String)
    (hT : ∀ s e, isExitEv e = false → f (addTrace s e) = f s)
    (hMo : ∀ s h', f { s with sw_model := h' } = f s)
    (hMeta : ∀ s k v, f (insMeta s k v) = f s) :
    Pres f (extractBody o p) := by
  simp only [extractBody]
  apply pres_bind
  · exact pres_docTypeOf f _
  · intro dt
    apply pres_bind
    · exact openStep_pres f _ dt hT hMo
    · intro _
      apply pres_bind
      · exact pres_getModel f
      · intro m
        apply pres_ite
        · exact runSteps_pres_all f 5 hT hMeta
        · exact pres_throw f _

/-! ## Concrete evaluation lemmas used by the claim proofs -/

/-- State after a successful attach-and-hide connection from the
initial state. -/
def connSt : St :=
  { sw_app := some (), sw_model := Option.none, metadata := [],
    trace := [Event.getActiveObject, Event.setVisible], cleanupCount := 0 }

theorem connect_true_init (o : Oracle)
    (hga : o.getActiveObject = Except.ok ())
    (hsv : o.setVisible = Except.ok ()) :
    connect_to_solidworks o { initSt with metadata := [] } = MRes.ok true connSt := by
  unfold connect_to_solidworks PyM.tryCatch PyM.bind callO setApp PyM.pure
  rw [hga, hsv]
  rfl

/-- State after the primary open call succeeded. -/
def openedSt (s : St) (ap : String) (dt : Nat) : St :=
  { s with trace := s.trace ++ [Event.openDoc ap dt], sw_model := some () }

theorem docTypeOf_prt : docTypeOf ".sldprt" = PyM.pure 1 := by
  unfold docTypeOf
  rw [if_pos rfl]

theorem docTypeOf_asm : docTypeOf ".sldasm" = PyM.pure 2 := by
  unfold docTypeOf
  rw [if_neg (by decide), if_pos rfl]

theorem docTypeOf_drw : docTypeOf ".slddrw" = PyM.pure 3 := by
  unfold docTypeOf
  rw [if_neg (by decide), if_neg (by decide), if_pos rfl]

theorem openStep_primary_ok (o : Oracle) (ap : String) (dt : Nat) (s : St)
    (h : o.openDoc = Except.ok (some ())) :
    openStep o ap dt s = MRes.ok () (openedSt s ap dt) := by
  unfold openStep PyM.tryCatch PyM.bind callO setModel
  rw [h]
  rfl

/-- With a part extension and a successful primary open, the guarded
body is exactly the five steps run from the post-open state. -/
theorem extract_body_run (o : Oracle) (p : String) (s₁ : St)
    (hext : strLower (splitextExt (o.abspath p)) = ".sldprt")
    (hod : o.openDoc = Except.ok (some ())) :
    extractBody o p s₁ = runSteps o 1 5 (openedSt s₁ (o.abspath p) 1) := by
  simp only [extractBody]
  rw [hext, docTypeOf_prt, pyBind_pure]
  simp only [bind_run (openStep_primary_ok o (o.abspath p) 1 s₁ hod)]
  simp only [bind_run (show getModel (openedSt s₁ (o.abspath p) 1) =
    MRes.ok (some ()) (openedSt s₁ (o.abspath p) 1) from rfl)]
  rw [if_pos (show (Option.some ()).isSome = true from rfl)]

theorem extract_st (o : Oracle) (p : String) (s₁ : St)
    (hext : strLower (splitextExt (o.abspath p)) = ".sldprt")
    (hod : o.openDoc = Except.ok (some ())) :
    stOf (PyM.tryCatch (extractBody o p) (fun _ => PyM.pure ()) s₁) =
      stOf (runSteps o 1 5 (openedSt s₁ (o.abspath p) 1)) := by
  unfold PyM.tryCatch
  rw [extract_body_run o p s₁ hext hod]
  cases hr : runSteps o 1 5 (openedSt s₁ (o.abspath p) 1) with
  | ok a s' => simp [stOf]
  | err e s' => simp [stOf, PyM.pure]

/-- Full-run reduction: successful connect plus part extension plus a
successful primary open turn the returned metadata into the metadata
after the five steps. -/
theorem read_meta_via_steps (o : Oracle) (p : String) (s₁ : St)
    (hc : connect_to_solidworks o { initSt with metadata := [] } = MRes.ok true s₁)
    (hext : strLower (splitextExt (o.abspath p)) = ".sldprt")
    (hod : o.openDoc = Except.ok (some ())) :
    metaOf (read_metadata o p initSt) =
      (stOf (runSteps o 1 5 (openedSt s₁ (o.abspath p) 1))).metadata := by
  obtain ⟨s₂, s₃, h2, h3, hread, hmeta⟩ := read_run_true o p initSt s₁ hc
  have hst : s₂ = stOf (runSteps o 1 5 (openedSt s₁ (o.abspath p) 1)) := by
    have := extract_st o p s₁ hext hod
    rw [h2] at this
    exact this
  rw [hread]
  show s₃.metadata = _
  rw [hmeta, hst]

/-- Steps after the first one leave a key outside their namespaces
untouched. -/
theorem runSteps_keep (o : Oracle) (dt : Nat) (k : String) (s0 : St)
    (hns : ∀ i, 1 ≤ i → ¬ nsPred i k) :
    ∀ n, 1 ≤ n →
      metaLook k (stOf (runSteps o dt n s0)) =
        metaLook k (stOf (runSteps o dt 1 s0)) := by
  intro n hn
  induction n with
  | zero => omega
  | succ n ih =>
      rcases Nat.lt_or_ge n 1 with hlt | hge
      · interval_cases n
        rfl
      · simp only [runSteps]
        cases hr : runSteps o dt n s0 with
        | ok a s' =>
            rw [bind_run hr, stepAt_keep n k (hns n hge)]
            rw [← show stOf (runSteps o dt n s0) = s' by rw [hr]; rfl]
            exact ih hge
        | err e s' =>
            rw [bind_run_err hr]
            rw [show stOf (MRes.err (α := Unit) e s') = s' from rfl]
            rw [← show stOf (runSteps o dt n s0) = s' by rw [hr]; rfl]
            exact ih hge

theorem notNs_of_nsZero {k : String} (hC : nsPred 0 k) :
    ∀ i, 1 ≤ i → ¬ nsPred i k := by
  intro i hi h
  exact ns_disjoint i 0 k (by omega) h hC

/-- The first run step is the custom-property step. -/
theorem runSteps_one (o : Oracle) (dt : Nat) (s0 : St) :
    runSteps o dt 1 s0 = step1 o s0 := by
  show PyM.bind (PyM.pure ()) (fun _ => stepAt o dt 0) s0 = step1 o s0
  rw [pyBind_pure]
  rfl

/-! ## Concrete oracles for witnesses and counterexamples -/

/-- A benign host: attach succeeds, open succeeds, and every read
yields nothing except the document title. -/
def oBase : Oracle :=
  { abspath := fun p => p
    getActiveObject := Except.ok ()
    dispatch := Except.ok ()
    setVisible := Except.ok ()
    openDoc := Except.ok (some ())
    openDoc6 := Except.ok (some ())
    customPropertyManager := Except.ok (some ())
    getNames := Except.ok PyVal.none
    get := fun _ => Except.ok PyVal.none
    summaryInfo := fun _ => Except.ok PyVal.none
    getTitle := Except.ok (PyVal.pystr "part")
    getPathName := Except.ok PyVal.none
    configurationManager := Except.ok Option.none
    activeConfiguration := Except.ok Option.none
    configName := Except.ok PyVal.none
    getConfigurationNames := Except.ok PyVal.none
    materialPropertyValues := Except.ok PyVal.none
    createMassProperty := Except.ok Option.none
    closeDoc := Except.ok () }

/-- Host exposing one custom property Weight with raw value 3 and
evaluated value 3.000kg, in the shape the program unwraps. -/
def oC1 : Oracle :=
  { oBase with
    getNames := Except.ok (PyVal.tup [PyVal.tup [PyVal.pystr "Weight"]])
    get := fun _ => Except.ok (PyVal.tup [PyVal.pystr "3", PyVal.pystr "3.000kg"]) }

/-- Host exposing one custom property P whose value tuple has an empty
first slot. -/
def oC6 : Oracle :=
  { oBase with
    getNames := Except.ok (PyVal.tup [PyVal.tup [PyVal.pystr "P"]])
    get := fun _ => Except.ok (PyVal.tup [PyVal.pystr ""]) }

/-- Host whose material property sequence starts with density 0.0. -/
def oC8 : Oracle :=
  { oBase with
    materialPropertyValues := Except.ok (PyVal.tup [PyVal.pynum 0 "0.0"]) }

/-- Host whose material property sequence starts with density 3.0. -/
def oC8prt : Oracle :=
  { oBase with
    materialPropertyValues := Except.ok (PyVal.tup [PyVal.pynum 3 "3.0"]) }

/-- Host that can neither be attached to nor spawned. -/
def oConnFail : Oracle :=
  { oBase with
    getActiveObject := Except.error "no running instance"
    dispatch := Except.error "cannot start host" }

/-! ## Claim theorems -/

/-- Claim C3 (confirmed): read_metadata returns normally on every
oracle, path and starting state; every failure mode ends in a normal
return of the (possibly empty or partial) metadata map. -/
theorem C3_never_raises (o : Oracle) (p : String) (s : St) :
    ∃ m s', read_metadata o p s = MRes.ok m s' := by
  have h : OkM (read_metadata o p) := by
    unfold read_metadata
    apply okM_bind okM_resetMeta
    intro _
    apply okM_bind (okM_connect o)
    intro c
    apply okM_ite
    · apply okM_bind
      · apply okM_tryFinally
        · exact okM_tryCatch _ (fun _ => okM_pure ())
        · exact okM_cleanup o
      · intro _
        exact okM_getMeta
    · exact okM_getMeta
  exact h s

/-- Claim C5 (confirmed): for an input path whose lower-cased extension
is outside the allow-list, main rejects the file with an empty host
trace: no host interaction of any kind is attempted. -/
theorem C5_unsupported_ext_rejected (prog p : String) (fs : String → Bool)
    (o : Oracle) (h : strLower (splitextExt p) ∉ allowedExts) :
    mainProg [prog, p] fs o = (Option.none, []) := by
  simp only [mainProg]
  by_cases hfs : fs p = true
  · rw [if_pos hfs, if_neg h]
  · rw [if_neg hfs]

/-- Witness for C5 at a concrete text file. -/
theorem C5_witness :
    mainProg ["prog", "doc.txt"] (fun _ => true) oBase = (Option.none, [])
    ∧ strLower (splitextExt "doc.txt") ∉ allowedExts :=
  ⟨C5_unsupported_ext_rejected "prog" "doc.txt" (fun _ => true) oBase (by decide),
   by decide⟩

/-- State after a primary open call that returned handle h. -/
def afterOpen (s : St) (ap : String) (dt : Nat) (h : Option Unit) : St :=
  { s with trace := s.trace ++ [Event.openDoc ap dt], sw_model := h }

/-- State after a raising primary call followed by the fallback call
returning handle h. -/
def afterOpen6 (s : St) (ap : String) (dt : Nat) (h : Option Unit) : St :=
  { s with
    trace := s.trace ++ [Event.openDoc ap dt, Event.openDoc6 ap dt 1 "" 0 0],
    sw_model := h }

/-- Claim C7 (confirmed): the open step issues the primary OpenDoc
call; only when that call raises does it retry once with OpenDoc6 at
the same absolute path and type code (with the fixed extra arguments);
and when no handle results the extraction body fails with the open
failure. -/
theorem C7_open_fallback (o : Oracle) (ap : String) (dt : Nat) (s : St) :
    (∀ h, o.openDoc = Except.ok h →
        openStep o ap dt s = MRes.ok () (afterOpen s ap dt h))
    ∧ (∀ e, o.openDoc = Except.error e →
        (stOf (openStep o ap dt s)).trace =
          s.trace ++ [Event.openDoc ap dt, Event.openDoc6 ap dt 1 "" 0 0])
    ∧ (∀ p, strLower (splitextExt (o.abspath p)) = ".sldprt" →
        o.openDoc = Except.ok Option.none →
        extractBody o p s =
          MRes.err "Failed to open file" (afterOpen s (o.abspath p) 1 Option.none))
    ∧ (∀ p e, strLower (splitextExt (o.abspath p)) = ".sldprt" →
        o.openDoc = Except.error e → o.openDoc6 = Except.ok Option.none →
        extractBody o p s =
          MRes.err "Failed to open file" (afterOpen6 s (o.abspath p) 1 Option.none)) := by
  refine ⟨?_, ?_, ?_, ?_⟩
  · intro h hod
    unfold openStep PyM.tryCatch PyM.bind callO setModel
    rw [hod]
    rfl
  · intro e hod
    unfold openStep PyM.tryCatch PyM.bind callO setModel
    rw [hod]
    cases ho6 : o.openDoc6 with
    | ok h => simp [addTrace, stOf]
    | error e2 => simp [addTrace, stOf]
  · intro p hext hod
    simp only [extractBody]
    rw [hext, docTypeOf_prt, pyBind_pure]
    have hop : openStep o (o.abspath p) 1 s =
        MRes.ok () (afterOpen s (o.abspath p) 1 Option.none) := by
      unfold openStep PyM.tryCatch PyM.bind callO setModel
      rw [hod]
      rfl
    simp only [bind_run hop]
    simp only [bind_run (show getModel (afterOpen s (o.abspath p) 1 Option.none) =
      MRes.ok Option.none (afterOpen s (o.abspath p) 1 Option.none) from rfl)]
    rw [if_neg (show ¬ ((Option.none : Option Unit).isSome = true) by decide)]
    rfl
  · intro p e hext hod ho6
    simp only [extractBody]
    rw [hext, docTypeOf_prt, pyBind_pure]
    have hop : openStep o (o.abspath p) 1 s =
        MRes.ok () (afterOpen6 s (o.abspath p) 1 Option.none) := by
      unfold openStep PyM.tryCatch PyM.bind callO setModel
      rw [hod, ho6]
      simp [addTrace, afterOpen6]
    simp only [bind_run hop]
    simp only [bind_run (show getModel (afterOpen6 s (o.abspath p) 1 Option.none) =
      MRes.ok Option.none (afterOpen6 s (o.abspath p) 1 Option.none) from rfl)]
    rw [if_neg (show ¬ ((Option.none : Option Unit).isSome = true) by decide)]
    rfl

/-- Witness for C7: primary open succeeding on the benign host. -/
theorem C7_witness :
    openStep oBase "part.sldprt" 1 initSt =
      MRes.ok () (afterOpen initSt "part.sldprt" 1 (some ())) :=
  (C7_open_fallback oBase "part.sldprt" 1 initSt).1 (some ()) rfl

/-- Claim C10 (confirmed): when the cleanup body runs without error,
both references end up None, a second cleanup call is a no-op apart
from the instrumentation counter (in particular it issues no further
host call, so CloseDoc is issued at most once per successfully
cleaned-up document), and cleanup itself returned normally. -/
theorem C10_cleanup_idempotent (o : Oracle) (s s' : St)
    (hb : cleanupBody o { s with cleanupCount := s.cleanupCount + 1 } =
      MRes.ok () s') :
    cleanup o s = MRes.ok () s'
    ∧ s'.sw_model = Option.none
    ∧ s'.sw_app = Option.none
    ∧ cleanup o s' = MRes.ok () { s' with cleanupCount := s'.cleanupCount + 1 }
    ∧ (stOf (cleanup o s')).trace = s'.trace := by
  have h1 : cleanup o s = MRes.ok () s' := by
    unfold cleanup
    rw [bind_run (show bumpCleanup s =
      MRes.ok () { s with cleanupCount := s.cleanupCount + 1 } from rfl)]
    unfold PyM.tryCatch
    rw [hb]
  have h2 : s'.sw_model = Option.none ∧ s'.sw_app = Option.none := by
    cases hsm : s.sw_model with
    | none =>
        cases hsa : s.sw_app with
        | none =>
            simp [cleanupBody, PyM.bind, getModel, getApp, PyM.pure, hsm, hsa] at hb
            rw [← hb]
            exact ⟨rfl, rfl⟩
        | some u =>
            simp [cleanupBody, PyM.bind, getModel, getApp, setAppNone, PyM.pure,
              hsm, hsa] at hb
            rw [← hb]
            exact ⟨rfl, rfl⟩
    | some u =>
        cases hgt : o.getTitle with
        | error e =>
            simp [cleanupBody, PyM.bind, getModel, getApp, callO, hsm, hgt] at hb
        | ok t =>
            cases hsa : s.sw_app with
            | none =>
                simp [cleanupBody, PyM.bind, getModel, getApp, callO, PyM.throw,
                  addTrace, hsm, hgt, hsa] at hb
            | some u2 =>
                cases hcd : o.closeDoc with
                | error e =>
                    simp [cleanupBody, PyM.bind, getModel, getApp, callO,
                      PyM.throw, setModel, addTrace, hsm, hgt, hsa, hcd] at hb
                | ok u3 =>
                    simp [cleanupBody, PyM.bind, getModel, getApp, callO,
                      setModel, setAppNone, PyM.pure, hsm, hgt, hsa, hcd,
                      addTrace] at hb
                    rw [← hb]
                    exact ⟨rfl, rfl⟩
  have h4 : cleanup o s' = MRes.ok () { s' with cleanupCount := s'.cleanupCount + 1 } := by
    unfold cleanup
    rw [bind_run (show bumpCleanup s' =
      MRes.ok () { s' with cleanupCount := s'.cleanupCount + 1 } from rfl)]
    unfold PyM.tryCatch cleanupBody PyM.bind getModel getApp PyM.pure
    simp [h2.1, h2.2]
  refine ⟨h1, h2.1, h2.2, h4, ?_⟩
  rw [h4]
  rfl

/-- Document-open state for the C10 witness. -/
def sC10 : St :=
  { sw_app := some (), sw_model := some (), metadata := [], trace := [],
    cleanupCount := 0 }

/-- State after the C10 witness cleanup. -/
def sC10f : St :=
  { sw_app := Option.none, sw_model := Option.none, metadata := [],
    trace := [Event.getTitle, Event.closeDoc (PyVal.pystr "part")],
    cleanupCount := 1 }

/-- Witness for C10 on the benign host with an open document. -/
theorem C10_witness :
    cleanup oBase sC10 = MRes.ok () sC10f
    ∧ sC10f.sw_model = Option.none
    ∧ sC10f.sw_app = Option.none
    ∧ cleanup oBase sC10f = MRes.ok () { sC10f with cleanupCount := sC10f.cleanupCount + 1 }
    ∧ (stOf (cleanup oBase sC10f)).trace = sC10f.trace :=
  C10_cleanup_idempotent oBase sC10 sC10f rfl

/-- Claim C9 (confirmed): the metadata map is monotonically assembled;
once a key is present after the first n extraction steps (from an empty
map), every longer run of the steps still maps it to the same value,
because each step writes only its own key namespace and the five
namespaces are pairwise disjoint. -/
theorem C9_monotone (o : Oracle) (dt : Nat) (s0 : St) (h0 : s0.metadata = [])
    (n m : Nat) (hnm : n ≤ m) (k v : String)
    (hk : metaLook k (stOf (runSteps o dt n s0)) = some v) :
    metaLook k (stOf (runSteps o dt m s0)) = some v := by
  induction hnm with
  | refl => exact hk
  | @step m' hm' ih =>
      simp only [runSteps]
      cases hr : runSteps o dt m' s0 with
      | ok a s' =>
          rw [bind_run hr]
          by_cases hns : nsPred m' k
          · exfalso
            have hne : metaLook k (stOf (runSteps o dt m' s0)) ≠ Option.none := by
              rw [ih]
              simp
            obtain ⟨i, hi, hnsi⟩ := runSteps_dom m' k s0 h0 hne
            exact ns_disjoint i m' k (Nat.ne_of_lt hi) hnsi hns
          · rw [stepAt_keep m' k hns]
            rw [← show stOf (runSteps o dt m' s0) = s' by rw [hr]; rfl]
            exact ih
      | err e s' =>
          rw [bind_run_err hr]
          rw [show stOf (MRes.err (α := Unit) e s') = s' from rfl]
          rw [← show stOf (runSteps o dt m' s0) = s' by rw [hr]; rfl]
          exact ih

/-- Witness for C9: the Weight key set by step one survives to the end
of the five steps. -/
theorem C9_witness :
    metaLook "Custom_Weight" (stOf (runSteps oC1 1 5 initSt)) = some "3" :=
  C9_monotone oC1 1 initSt rfl 1 5 (by omega) "Custom_Weight" "3" (by decide)

/-- Amended claim C1 (the code keeps the FIRST slot of the returned
value tuple, the raw value, not the evaluated one): when the host
yields the Weight property as the tuple (raw 3, evaluated 3.000kg), the
returned map contains Custom_Weight = 3. -/
theorem C1_amended (o : Oracle) (p : String)
    (hga : o.getActiveObject = Except.ok ())
    (hsv : o.setVisible = Except.ok ())
    (hod : o.openDoc = Except.ok (some ()))
    (hext : strLower (splitextExt (o.abspath p)) = ".sldprt")
    (hcpm : o.customPropertyManager = Except.ok (some ()))
    (hgn : o.getNames = Except.ok (PyVal.tup [PyVal.tup [PyVal.pystr "Weight"]]))
    (hget : o.get (PyVal.pystr "Weight") =
      Except.ok (PyVal.tup [PyVal.pystr "3", PyVal.pystr "3.000kg"])) :
    lookupD (metaOf (read_metadata o p initSt)) "Custom_Weight" = some "3" := by
  rw [read_meta_via_steps o p connSt (connect_true_init o hga hsv) hext hod]
  show metaLook "Custom_Weight"
    (stOf (runSteps o 1 5 (openedSt connSt (o.abspath p) 1))) = some "3"
  rw [runSteps_keep o 1 "Custom_Weight" (openedSt connSt (o.abspath p) 1)
    (notNs_of_nsZero (show strHasPrefix "Custom_" "Custom_Weight" = true by decide))
    5 (by omega)]
  rw [runSteps_one]
  simp [step1, customLoop, customStore, pyIterM, PyM.tryCatch, PyM.bind, callO,
    putMeta, PyM.pure, hcpm, hgn, hget, pyTruthy, pyStr, metaLook, stOf, addTrace,
    openedSt, connSt, dictInsert, lookupD, insMeta]
  decide

/-- Counterexample to C1 as stated: with Weight exposed as (raw 3,
evaluated 3.000kg) the run stores the raw 3, not the evaluated
3.000kg. -/
theorem C1_counterexample :
    lookupD (metaOf (read_metadata oC1 "part.sldprt" initSt)) "Custom_Weight" = some "3"
    ∧ lookupD (metaOf (read_metadata oC1 "part.sldprt" initSt)) "Custom_Weight" ≠
      some "3.000kg" := by
  constructor
  · decide
  · decide

/-- Witness for the amended C1 on the concrete host. -/
theorem C1_witness :
    lookupD (metaOf (read_metadata oC1 "part.sldprt" initSt)) "Custom_Weight" = some "3" :=
  C1_amended oC1 "part.sldprt" rfl rfl rfl (by decide) rfl rfl rfl

/-- Amended claim C2 (the code has no fixed key backfill): when the
host enumerates no custom property names, the returned map has no
Custom_ key at all; absent key properties are omitted, not emitted as
empty strings. -/
theorem C2_amended (o : Oracle) (p : String) (w : PyVal)
    (hga : o.getActiveObject = Except.ok ())
    (hsv : o.setVisible = Except.ok ())
    (hod : o.openDoc = Except.ok (some ()))
    (hext : strLower (splitextExt (o.abspath p)) = ".sldprt")
    (hcpm : o.customPropertyManager = Except.ok (some ()))
    (hgn : o.getNames = Except.ok w) (htr : pyTruthy w = false) :
    ∀ t, lookupD (metaOf (read_metadata o p initSt)) ("Custom_" ++ t) = Option.none := by
  intro t
  rw [read_meta_via_steps o p connSt (connect_true_init o hga hsv) hext hod]
  show metaLook ("Custom_" ++ t)
    (stOf (runSteps o 1 5 (openedSt connSt (o.abspath p) 1))) = Option.none
  rw [runSteps_keep o 1 ("Custom_" ++ t) (openedSt connSt (o.abspath p) 1)
    (notNs_of_nsZero (strHasPrefix_append "Custom_" t)) 5 (by omega)]
  rw [runSteps_one]
  simp [step1, PyM.tryCatch, PyM.bind, callO, PyM.pure, hcpm, hgn, htr, metaLook,
    stOf, addTrace, openedSt, connSt, lookupD]

/-- Counterexample to C2 as stated: a document with no custom
properties yields a map without the Custom_Weight key, not one with an
empty-string entry. -/
theorem C2_counterexample :
    lookupD (metaOf (read_metadata oBase "part.sldprt" initSt)) "Custom_Weight" =
      Option.none
    ∧ lookupD (metaOf (read_metadata oBase "part.sldprt" initSt)) "Custom_Weight" ≠
      some "" := by
  constructor
  · decide
  · decide

/-- Witness for the amended C2 on the concrete host. -/
theorem C2_witness :
    lookupD (metaOf (read_metadata oBase "part.sldprt" initSt)) ("Custom_" ++ "Weight") =
      Option.none :=
  C2_amended oBase "part.sldprt" PyVal.none rfl rfl rfl (by decide) rfl rfl rfl "Weight"

/-- Amended claim C6: a property read whose overall result is falsy
(None, empty string, empty tuple) is omitted from the map; but a read
yielding a nonempty tuple whose first slot is empty is stored as an
empty-string entry rather than omitted. -/
theorem C6_amended (o : Oracle) (p : String) (v : PyVal)
    (hga : o.getActiveObject = Except.ok ())
    (hsv : o.setVisible = Except.ok ())
    (hod : o.openDoc = Except.ok (some ()))
    (hext : strLower (splitextExt (o.abspath p)) = ".sldprt")
    (hcpm : o.customPropertyManager = Except.ok (some ()))
    (hgn : o.getNames = Except.ok (PyVal.tup [PyVal.tup [PyVal.pystr "P"]]))
    (hget : o.get (PyVal.pystr "P") = Except.ok v) :
    (pyTruthy v = false →
      lookupD (metaOf (read_metadata o p initSt)) "Custom_P" = Option.none)
    ∧ (∀ rest, v = PyVal.tup (PyVal.pystr "" :: rest) →
      lookupD (metaOf (read_metadata o p initSt)) "Custom_P" = some "") := by
  constructor
  · intro htr
    rw [read_meta_via_steps o p connSt (connect_true_init o hga hsv) hext hod]
    show metaLook "Custom_P"
      (stOf (runSteps o 1 5 (openedSt connSt (o.abspath p) 1))) = Option.none
    rw [runSteps_keep o 1 "Custom_P" (openedSt connSt (o.abspath p) 1)
      (notNs_of_nsZero (show strHasPrefix "Custom_" "Custom_P" = true by decide))
      5 (by omega)]
    rw [runSteps_one]
    simp [step1, customLoop, customStore, pyIterM, PyM.tryCatch, PyM.bind, callO,
      putMeta, PyM.pure, hcpm, hgn, hget, htr, metaLook, stOf, addTrace,
      openedSt, connSt, lookupD,
      show pyTruthy (PyVal.tup [PyVal.tup [PyVal.pystr "P"]]) = true from rfl,
      show pyTruthy (PyVal.tup [PyVal.pystr "P"]) = true from rfl]
  · intro rest hv
    subst hv
    rw [read_meta_via_steps o p connSt (connect_true_init o hga hsv) hext hod]
    show metaLook "Custom_P"
      (stOf (runSteps o 1 5 (openedSt connSt (o.abspath p) 1))) = some ""
    rw [runSteps_keep o 1 "Custom_P" (openedSt connSt (o.abspath p) 1)
      (notNs_of_nsZero (show strHasPrefix "Custom_" "Custom_P" = true by decide))
      5 (by omega)]
    rw [runSteps_one]
    simp [step1, customLoop, customStore, pyIterM, PyM.tryCatch, PyM.bind, callO,
      putMeta, PyM.pure, hcpm, hgn, hget, pyTruthy, pyStr, metaLook, stOf, addTrace,
      openedSt, connSt, dictInsert, lookupD, insMeta]

/-- Counterexample to C6 as stated: a read yielding a tuple with an
empty first slot is recorded as Custom_P with the empty string, not
omitted. -/
theorem C6_counterexample :
    lookupD (metaOf (read_metadata oC6 "part.sldprt" initSt)) "Custom_P" = some ""
    ∧ lookupD (metaOf (read_metadata oC6 "part.sldprt" initSt)) "Custom_P" ≠
      Option.none := by
  constructor
  · decide
  · decide

/-- Witness for the amended C6 on the concrete host. -/
theorem C6_witness :
    lookupD (metaOf (read_metadata oC6 "part.sldprt" initSt)) "Custom_P" = some "" :=
  (C6_amended oC6 "part.sldprt" (PyVal.tup [PyVal.pystr ""]) rfl rfl rfl (by decide)
    rfl rfl rfl).2 [] rfl

/-! ## Machinery for the material-density claim -/

theorem okM_summaryLoop (o : Oracle) : ∀ l, OkM (summaryLoop o l) := by
  intro l
  induction l with
  | nil => exact okM_pure ()
  | cons q rest ih =>
      obtain ⟨i, nm⟩ := q
      simp only [summaryLoop]
      exact okM_bind (okM_tryCatch _ (fun _ => okM_pure ())) (fun _ => ih)

theorem okM_stepAt (o : Oracle) (dt : Nat) (i : Nat) : OkM (stepAt o dt i) := by
  match i with
  | 0 => exact okM_tryCatch _ (fun _ => okM_pure ())
  | 1 => exact okM_summaryLoop o summaryFields
  | 2 => exact okM_tryCatch _ (fun _ => okM_pure ())
  | 3 => exact okM_tryCatch _ (fun _ => okM_pure ())
  | 4 =>
      exact okM_bind
        (okM_ite _ (okM_tryCatch _ (fun _ => okM_pure ())) (okM_pure ()))
        (fun _ => okM_tryCatch _ (fun _ => okM_pure ()))
  | n + 5 => exact okM_pure ()

theorem okM_runSteps (o : Oracle) (dt n : Nat) : OkM (runSteps o dt n) := by
  induction n with
  | zero => exact okM_pure ()
  | succ n ih =>
      simp only [runSteps]
      exact okM_bind ih (fun _ => okM_stepAt o dt n)

/-- For a non-part document type, no step ever writes MaterialDensity. -/
theorem runSteps_keep_MD (o : Oracle) (dt : Nat) (hdt : dt ≠ 1) (n : Nat) :
    Pres (metaLook "MaterialDensity") (runSteps o dt n) := by
  induction n with
  | zero => exact pres_pure _ ()
  | succ n ih =>
      simp only [runSteps]
      refine pres_bind ih (fun _ => ?_)
      match n with
      | 0 =>
          exact stepAt_keep 0 _
            (fun h => absurd (show strHasPrefix "Custom_" "MaterialDensity" = true from h)
              (by decide))
      | 1 =>
          exact stepAt_keep 1 _
            (fun h => absurd (show strHasPrefix "Summary_" "MaterialDensity" = true from h)
              (by decide))
      | 2 =>
          refine stepAt_keep 2 _ ?_
          rintro (h | h) <;> exact absurd h (by decide)
      | 3 =>
          refine stepAt_keep 3 _ ?_
          rintro (h | h) <;> exact absurd h (by decide)
      | 4 =>
          exact step5_pres _ dt (fun _ _ _ => rfl)
            (fun h1 => absurd h1 hdt)
            (fun s w => lookupD_dictInsert_ne _ _ _ _ (by decide))
            (fun s w => lookupD_dictInsert_ne _ _ _ _ (by decide))
            (fun s w => lookupD_dictInsert_ne _ _ _ _ (by decide))
      | nn + 5 => exact pres_pure _ ()

/-- For assembly or drawing extensions the whole guarded body leaves
MaterialDensity untouched. -/
theorem extractBody_keep_MD (o : Oracle) (p : String)
    (hext : strLower (splitextExt (o.abspath p)) = ".sldasm"
      ∨ strLower (splitextExt (o.abspath p)) = ".slddrw") :
    Pres (metaLook "MaterialDensity") (extractBody o p) := by
  simp only [extractBody]
  rcases hext with h | h <;> rw [h]
  · rw [docTypeOf_asm, pyBind_pure]
    apply pres_bind (openStep_pres (metaLook "MaterialDensity") _ _
      (fun _ _ _ => rfl) (fun _ _ => rfl))
    intro _
    apply pres_bind (pres_getModel _)
    intro m
    apply pres_ite
    · exact runSteps_keep_MD o 2 (by decide) 5
    · exact pres_throw _ _
  · rw [docTypeOf_drw, pyBind_pure]
    apply pres_bind (openStep_pres (metaLook "MaterialDensity") _ _
      (fun _ _ _ => rfl) (fun _ _ => rfl))
    intro _
    apply pres_bind (pres_getModel _)
    intro m
    apply pres_ite
    · exact runSteps_keep_MD o 3 (by decide) 5
    · exact pres_throw _ _

/-- Amended claim C8: MaterialDensity appears only for part documents;
for assembly or drawing documents the key never appears whatever the
host does; and for part documents the stored value is str of the first
entry of the material sequence when that entry is truthy, and the empty
string when it is falsy (for example density 0.0). -/
theorem C8_amended (o : Oracle) (p : String) :
    ((strLower (splitextExt (o.abspath p)) = ".sldasm"
        ∨ strLower (splitextExt (o.abspath p)) = ".slddrw") →
      lookupD (metaOf (read_metadata o p initSt)) "MaterialDensity" = Option.none)
    ∧ (∀ w, o.getActiveObject = Except.ok () → o.setVisible = Except.ok () →
        o.openDoc = Except.ok (some ()) →
        strLower (splitextExt (o.abspath p)) = ".sldprt" →
        o.materialPropertyValues = Except.ok w → pyTruthy w = true →
        ∀ nl, pyLenOpt w = some nl → 0 < nl →
        lookupD (metaOf (read_metadata o p initSt)) "MaterialDensity" =
          some (if pyTruthy (pyFirst w) then pyStr (pyFirst w) else "")) := by
  constructor
  · intro hext
    obtain ⟨b, s₁, hcb⟩ := okM_connect o { initSt with metadata := [] }
    have hs1 : s₁.metadata = [] := by
      have := connect_meta o { initSt with metadata := [] }
      rw [hcb] at this
      exact this
    cases b with
    | false =>
        rw [read_run_false o p initSt s₁ hcb]
        show lookupD s₁.metadata "MaterialDensity" = Option.none
        rw [hs1]
        rfl
    | true =>
        obtain ⟨s₂, s₃, h2, h3, hread, hmeta⟩ := read_run_true o p initSt s₁ hcb
        rw [hread]
        show lookupD s₃.metadata "MaterialDensity" = Option.none
        rw [hmeta]
        have hk := pres_tryCatch (extractBody_keep_MD o p hext)
          (fun _ => pres_pure (metaLook "MaterialDensity") ()) s₁
        rw [h2] at hk
        show metaLook "MaterialDensity" s₂ = Option.none
        rw [show metaLook "MaterialDensity" s₂ =
          metaLook "MaterialDensity" s₁ from hk]
        show lookupD s₁.metadata "MaterialDensity" = Option.none
        rw [hs1]
        rfl
  · intro w hga hsv hod hext hmw htru nl hlen hnl
    rw [read_meta_via_steps o p connSt (connect_true_init o hga hsv) hext hod]
    obtain ⟨u, s4, hr4⟩ := okM_runSteps o 1 4 (openedSt connSt (o.abspath p) 1)
    cases u
    show metaLook "MaterialDensity"
      (stOf (runSteps o 1 5 (openedSt connSt (o.abspath p) 1))) = _
    rw [show runSteps o 1 5 =
      PyM.bind (runSteps o 1 4) (fun _ => stepAt o 1 4) from rfl]
    rw [bind_run hr4]
    show metaLook "MaterialDensity" (stOf (step5 o 1 s4)) = _
    unfold step5
    rw [if_pos rfl]
    have hmat : materialPart o s4 = MRes.ok () (insMeta (addTrace s4 Event.materialProps)
        "MaterialDensity" (if pyTruthy (pyFirst w) then pyStr (pyFirst w) else "")) := by
      unfold materialPart PyM.tryCatch PyM.bind callO putMeta
      rw [hmw]
      simp [htru, hlen, hnl, insMeta, addTrace]
    rw [bind_run hmat]
    rw [massPart_pres (metaLook "MaterialDensity") (fun _ _ _ => rfl)
      (fun s w' => lookupD_dictInsert_ne _ _ _ _ (by decide))
      (fun s w' => lookupD_dictInsert_ne _ _ _ _ (by decide))
      (fun s w' => lookupD_dictInsert_ne _ _ _ _ (by decide))
      (insMeta (addTrace s4 Event.materialProps) "MaterialDensity"
        (if pyTruthy (pyFirst w) then pyStr (pyFirst w) else ""))]
    exact lookupD_dictInsert_self _ _ _

/-- Counterexample to C8 as stated: with material sequence (0.0), the
stored MaterialDensity is the empty string, not str of the first
entry. -/
theorem C8_counterexample :
    lookupD (metaOf (read_metadata oC8 "part.sldprt" initSt)) "MaterialDensity" = some ""
    ∧ some "" ≠ some (pyStr (pyFirst (PyVal.tup [PyVal.pynum 0 "0.0"]))) := by
  constructor
  · decide
  · decide

/-- Witness for the amended C8 at a truthy density. -/
theorem C8_witness :
    lookupD (metaOf (read_metadata oC8prt "part.sldprt" initSt)) "MaterialDensity" =
      some "3.0" := by
  have h := (C8_amended oC8prt "part.sldprt").2
    (PyVal.tup [PyVal.pynum 3 "3.0"]) rfl rfl rfl (by decide) rfl rfl
    1 rfl (by decide)
  exact h.trans (by decide)

/-- Amended claim C4: on every extraction attempt that establishes a
host connection, cleanup runs exactly once — also when the body raised
partway — and no run ever issues the host-termination call; but an
attempt whose connection fails returns without invoking cleanup at
all. -/
theorem C4_amended (o : Oracle) (p : String) (s₁ : St)
    (hc : connect_to_solidworks o { initSt with metadata := [] } = MRes.ok true s₁) :
    (stOf (read_metadata o p initSt)).cleanupCount = 1
    ∧ countExit (stOf (read_metadata o p initSt)).trace = 0 := by
  obtain ⟨s₂, s₃, h2, h3, hread, hmeta⟩ := read_run_true o p initSt s₁ hc
  have hstOf : stOf (read_metadata o p initSt) = s₃ := by
    rw [hread]
    rfl
  have hc1c : s₁.cleanupCount = 0 := by
    have := connect_count o { initSt with metadata := [] }
    rw [hc] at this
    exact this
  have hc2c : s₂.cleanupCount = s₁.cleanupCount := by
    have hp := pres_tryCatch (f := fun st => st.cleanupCount)
      (extractBody_pres (o := o) (fun st => st.cleanupCount) p (fun _ _ _ => rfl)
        (fun _ _ => rfl) (fun _ _ _ => rfl))
      (fun _ => pres_pure _ ()) s₁
    rw [h2] at hp
    exact hp
  have hc3c : s₃.cleanupCount = s₂.cleanupCount + 1 := by
    have := cleanup_count o s₂
    rw [h3] at this
    exact this
  have hx1 : countExit s₁.trace = 0 := by
    have := connect_pres (o := o) (fun st => countExit st.trace)
      (fun s e he => countExit_addTrace he s) (fun _ => rfl)
      { initSt with metadata := [] }
    rw [hc] at this
    exact this
  have hx2 : countExit s₂.trace = countExit s₁.trace := by
    have hp := pres_tryCatch (f := fun st => countExit st.trace)
      (extractBody_pres (o := o) (fun st => countExit st.trace) p
        (fun s e he => countExit_addTrace he s) (fun _ _ => rfl) (fun _ _ _ => rfl))
      (fun _ => pres_pure _ ()) s₁
    rw [h2] at hp
    exact hp
  have hx3 : countExit s₃.trace = countExit s₂.trace := by
    have := cleanup_pres (o := o) (fun st => countExit st.trace)
      (fun s e he => countExit_addTrace he s) (fun _ _ => rfl) (fun _ => rfl)
      (fun _ => rfl) s₂
    rw [h3] at this
    exact this
  constructor
  · rw [hstOf]
    omega
  · rw [hstOf]
    omega

/-- Counterexample to C4 as stated: when neither attach nor spawn
succeeds, the extraction attempt returns without cleanup ever being
invoked. -/
theorem C4_counterexample :
    (stOf (read_metadata oConnFail "part.sldprt" initSt)).cleanupCount = 0
    ∧ (stOf (read_metadata oConnFail "part.sldprt" initSt)).cleanupCount ≠ 1 := by
  constructor
  · decide
  · decide

/-- Witness for the amended C4 on the benign host. -/
theorem C4_witness :
    (stOf (read_metadata oBase "part.sldprt" initSt)).cleanupCount = 1
    ∧ countExit (stOf (read_metadata oBase "part.sldprt" initSt)).trace = 0 :=
  C4_amended oBase "part.sldprt" connSt rfl
